import Mathlib

/-!
Verification development for the `diorama` interactive CPU ray tracer
(axis-aligned textured cubes on a uniform grid, Amanatides-Woo DDA
traversal, recursive Phong integrator, cubemap skybox, orbital camera).

The Rust sources under `src/` are embedded shallowly:

* `f32` values are modelled by the type `F`: exact rationals extended with
  `+inf`, `-inf` and `NaN`, with IEEE-style propagation for the operations
  the code uses (division by zero yields a signed infinity, `0 * inf` is
  `NaN`, comparisons with `NaN` are false, Rust's `f32::min`/`f32::max`
  ignore a `NaN` argument).  Finite arithmetic is exact: rounding is not
  modelled, so theorems are statements about the algorithms in idealized
  (infinitely precise) arithmetic.
* Loops become fuel-indexed recursions; the fuel chosen for the grid
  walker strictly dominates the number of cells a walk can visit (each
  iteration either breaks or moves one axis index monotonically), so the
  truncation is never reached on the executions reasoned about.
* `material.rs`, `slab.rs` and `sphere.rs` are declared by `main.rs` but
  are not present under `src/`; `Material` is modelled from the spec
  (section 3), and a `Slab` is per spec section 4.2 a `Cube` whose
  `min`/`max` occupy half the cell, hence scenes are modelled as lists of
  `Cube` records.  Everything else is translated from the sources.
-/

namespace Diorama

/-- Model of an `f32` value: an exact rational, one of the two infinities,
or `NaN`.  Finite arithmetic is exact (no rounding); the special values
follow IEEE semantics for the operations the renderer uses. -/
inductive F where
  | nan : F
  | pinf : F
  | ninf : F
  | fin : ℚ → F
deriving DecidableEq, Repr

namespace F

/-- IEEE negation. -/
def neg : F → F
  | nan => nan
  | pinf => ninf
  | ninf => pinf
  | fin q => fin (-q)

/-- IEEE addition (exact on finite values). -/
def add : F → F → F
  | nan, _ => nan
  | _, nan => nan
  | pinf, ninf => nan
  | ninf, pinf => nan
  | pinf, _ => pinf
  | _, pinf => pinf
  | ninf, _ => ninf
  | _, ninf => ninf
  | fin p, fin q => fin (p + q)

/-- IEEE subtraction, defined as addition of the negation. -/
def sub (a b : F) : F := add a (neg b)

/-- IEEE multiplication (exact on finite values); `0 * inf = NaN`. -/
def mul : F → F → F
  | nan, _ => nan
  | _, nan => nan
  | pinf, pinf => pinf
  | pinf, ninf => ninf
  | ninf, pinf => ninf
  | ninf, ninf => pinf
  | pinf, fin q => if 0 < q then pinf else if q < 0 then ninf else nan
  | fin q, pinf => if 0 < q then pinf else if q < 0 then ninf else nan
  | ninf, fin q => if 0 < q then ninf else if q < 0 then pinf else nan
  | fin q, ninf => if 0 < q then ninf else if q < 0 then pinf else nan
  | fin p, fin q => fin (p * q)

/-- IEEE division (exact on finite values); a nonzero finite value divided
by zero is a signed infinity (there is no negative zero in the model),
`0/0` and `inf/inf` are `NaN`, a finite value divided by an infinity is
zero. -/
def div : F → F → F
  | nan, _ => nan
  | _, nan => nan
  | pinf, pinf => nan
  | pinf, ninf => nan
  | ninf, pinf => nan
  | ninf, ninf => nan
  | pinf, fin q => if q < 0 then ninf else pinf
  | ninf, fin q => if q < 0 then pinf else ninf
  | fin _, pinf => fin 0
  | fin _, ninf => fin 0
  | fin p, fin q =>
    if q = 0 then (if 0 < p then pinf else if p < 0 then ninf else nan)
    else fin (p / q)

/-- IEEE strict ordering as a boolean; any comparison with `NaN` is false. -/
def lt : F → F → Bool
  | nan, _ => false
  | _, nan => false
  | ninf, ninf => false
  | ninf, _ => true
  | _, ninf => false
  | pinf, _ => false
  | fin _, pinf => true
  | fin p, fin q => decide (p < q)

/-- IEEE non-strict ordering as a boolean; any comparison with `NaN` is
false, and `inf <= inf` is true. -/
def le : F → F → Bool
  | nan, _ => false
  | _, nan => false
  | ninf, _ => true
  | _, ninf => false
  | _, pinf => true
  | pinf, fin _ => false
  | fin p, fin q => decide (p ≤ q)

/-- IEEE equality test as a boolean; `NaN` is not equal to anything. -/
def beq : F → F → Bool
  | pinf, pinf => true
  | ninf, ninf => true
  | fin p, fin q => decide (p = q)
  | _, _ => false

/-- Rust's `f32::min`: returns the smaller argument, ignoring a `NaN`. -/
def rmin : F → F → F
  | nan, b => b
  | a, nan => a
  | a, b => if lt a b then a else b

/-- Rust's `f32::max`: returns the larger argument, ignoring a `NaN`. -/
def rmax : F → F → F
  | nan, b => b
  | a, nan => a
  | a, b => if lt b a then a else b

/-- `f32::is_finite`. -/
def isFinite : F → Bool
  | fin _ => true
  | _ => false

/-- Absolute value. -/
def abs : F → F
  | nan => nan
  | pinf => pinf
  | ninf => pinf
  | fin q => fin |q|

/-- `f32::floor`; infinities and `NaN` are fixed points. -/
def floorF : F → F
  | nan => nan
  | pinf => pinf
  | ninf => ninf
  | fin q => fin (q.floor : ℤ)

/-- `f32::ceil`; infinities and `NaN` are fixed points. -/
def ceilF : F → F
  | nan => nan
  | pinf => pinf
  | ninf => ninf
  | fin q => fin (q.ceil : ℤ)

/-- Rational truncation toward zero (the rounding used by Rust's
float-to-integer casts). -/
def truncQ (q : ℚ) : ℤ := if 0 ≤ q then q.floor else -(-q).floor

/-- Rust's saturating `as i32` cast: `NaN` maps to 0, infinities saturate,
finite values truncate toward zero and saturate at the `i32` range. -/
def toI32 : F → ℤ
  | nan => 0
  | pinf => 2147483647
  | ninf => -2147483648
  | fin q => max (-2147483648) (min 2147483647 (truncQ q))

/-- Rust's `f32::clamp` (for a `NaN` input the result is `NaN`; the model
leaves the `min <= max` panic precondition implicit). -/
def clampF (x lo hi : F) : F :=
  match x with
  | nan => nan
  | x => if lt x lo then lo else if lt hi x then hi else x

end F

/-- Rust's `i32::clamp` (the `lo <= hi` panic precondition is implicit). -/
def clampZ (x lo hi : ℤ) : ℤ := if x < lo then lo else if hi < x then hi else x

/-- A `Vector3` of modelled `f32` values. -/
structure FV3 where
  x : F
  y : F
  z : F
deriving DecidableEq, Repr

namespace FV3

def add (a b : FV3) : FV3 := ⟨F.add a.x b.x, F.add a.y b.y, F.add a.z b.z⟩

def sub (a b : FV3) : FV3 := ⟨F.sub a.x b.x, F.sub a.y b.y, F.sub a.z b.z⟩

/-- Componentwise scaling by a scalar (`Vector3 * f32`). -/
def scale (v : FV3) (s : F) : FV3 := ⟨F.mul v.x s, F.mul v.y s, F.mul v.z s⟩

/-- Componentwise division by a scalar (`Vector3 / f32`). -/
def sdiv (v : FV3) (s : F) : FV3 := ⟨F.div v.x s, F.div v.y s, F.div v.z s⟩

def neg (v : FV3) : FV3 := ⟨F.neg v.x, F.neg v.y, F.neg v.z⟩

/-- Dot product, summed left to right as raylib does. -/
def dot (a b : FV3) : F :=
  F.add (F.add (F.mul a.x b.x) (F.mul a.y b.y)) (F.mul a.z b.z)

def zero : FV3 := ⟨F.fin 0, F.fin 0, F.fin 0⟩

/-- raylib's `Vector3::normalized` (external collaborator, modelled from
raymath: divide by the length, where a zero length is replaced by one; the
square root is an abstract parameter since it is irrational in general). -/
def normalized (sqrtF : F → F) (v : FV3) : FV3 :=
  let len := sqrtF (dot v v)
  let len := if F.beq len (F.fin 0) then F.fin 1 else len
  scale v (F.div (F.fin 1) len)

end FV3

/-- A `Vector3` whose components are known finite (used for cube bounds,
which the data model requires to be finite). -/
structure QV3 where
  x : ℚ
  y : ℚ
  z : ℚ
deriving DecidableEq, Repr

/-- Injection of a finite vector into the `f32` model. -/
def QV3.toF (v : QV3) : FV3 := ⟨F.fin v.x, F.fin v.y, F.fin v.z⟩

instance (n : ℕ) : OfNat F n := ⟨F.fin (OfNat.ofNat n)⟩

/-- Rust's `as usize` cast of an `f32` (saturating below at zero; `NaN`
maps to zero; the code only applies it to small non-negative values). -/
def F.toUsize : F → ℕ
  | F.nan => 0
  | F.pinf => 18446744073709551615
  | F.ninf => 0
  | F.fin q => (F.truncQ q).toNat

/-- Modelled from the spec: `material.rs` is declared by `main.rs` but is
not under `src/`.  Per spec section 3 a material is an immutable record of
a diffuse color, a Phong exponent, a 4-channel albedo (diffuse weight,
specular weight, reflectivity, transmission weight) and a refractive
index.  The `[f32;4]` albedo is modelled as four fields `albedo0..3`. -/
structure Material where
  diffuse : FV3
  specular : F
  albedo0 : F
  albedo1 : F
  albedo2 : F
  albedo3 : F
  refractiveIndex : F
deriving DecidableEq, Repr

/-- Modelled from the spec: `Material::black()` (used by
`Intersect::empty`) is the all-zero material. -/
def Material.black : Material := ⟨FV3.zero, 0, 0, 0, 0, 0, 0⟩

/-- Modelled from the spec: `Material::new(diffuse, specular, albedo,
refractive_index)`. -/
def Material.new (diffuse : FV3) (specular a0 a1 a2 a3 refractiveIndex : F) :
    Material := ⟨diffuse, specular, a0, a1, a2, a3, refractiveIndex⟩

/-- An 8-bit RGBA texel (`raylib::Color`), each channel in `0..=255`. -/
structure Color8 where
  r : ℕ
  g : ℕ
  b : ℕ
  a : ℕ
deriving DecidableEq, Repr

/-- CPU-side texture from `texture.rs`: dimensions and a row-major
top-left-origin texel buffer. -/
structure Texture where
  width : ℤ
  height : ℤ
  pixels : List Color8
deriving DecidableEq, Repr

namespace Texture

/-- `Texture::sample_clamp_rgba`: half-texel inset clamp of the UVs, then
nearest-neighbor lookup; returns RGB in `[0,1]` and alpha in `[0,1]`.
Rust indexes the pixel buffer directly (in range for well-formed
textures); the model totalizes the lookup with a transparent black texel. -/
def sampleClampRGBA (t : Texture) (u v : F) : FV3 × F :=
  let epsU := F.div (F.fin (1/2)) (F.fin (t.width : ℚ))
  let epsV := F.div (F.fin (1/2)) (F.fin (t.height : ℚ))
  let u := F.clampF u epsU (F.sub 1 epsU)
  let v := F.clampF v epsV (F.sub 1 epsV)
  let sx := F.sub (F.mul u (F.fin (t.width : ℚ))) (F.fin (1/2))
  let sy := F.sub (F.mul v (F.fin (t.height : ℚ))) (F.fin (1/2))
  let xi := (F.clampF (F.floorF sx) 0 (F.fin ((t.width : ℚ) - 1))).toUsize
  let yi := (F.clampF (F.floorF sy) 0 (F.fin ((t.height : ℚ) - 1))).toUsize
  let idx := yi * t.width.toNat + xi
  let c := t.pixels.getD idx ⟨0, 0, 0, 0⟩
  (⟨F.fin ((c.r : ℚ) / 255), F.fin ((c.g : ℚ) / 255), F.fin ((c.b : ℚ) / 255)⟩,
   F.fin ((c.a : ℚ) / 255))

/-- `Texture::sample_clamp`: the RGB part of the clamped sample. -/
def sampleClamp (t : Texture) (u v : F) : FV3 := (t.sampleClampRGBA u v).1

end Texture

/-- Per-face sampling style from `palette.rs`. -/
inductive TexStyle where
  | normal : TexStyle
  | grayscaleTint (color : FV3) : TexStyle
  | blackIsTransparent (threshold : F) : TexStyle
  | grayscaleTintBlackTransparent (color : FV3) (threshold : F) : TexStyle
  | imageAlphaCutout (threshold : F) : TexStyle
  | grayscaleTintImageAlphaCutout (color : FV3) (threshold : F) : TexStyle
  | imageAlphaWindow (threshold : F) : TexStyle
  | grayscaleTintImageAlphaWindow (color : FV3) (threshold : F) : TexStyle

/-- A face layer: texture plus sampling style (`palette.rs`). -/
structure FaceStyle where
  tex : Texture
  style : TexStyle

/-- Rec.709 luminance with clamp, from `cube.rs`. -/
def luminance (rgb : FV3) : F :=
  F.clampF
    (F.add (F.add (F.mul rgb.x (F.fin (2126/10000))) (F.mul rgb.y (F.fin (7152/10000))))
      (F.mul rgb.z (F.fin (722/10000)))) 0 1

/-- `cube.rs::sample_with_style`: styled texture sampling; `none` means the
surface is missed (cutout). -/
def sampleWithStyle (tex : Texture) (u v : F) (style : TexStyle) : Option (FV3 × F) :=
  match style with
  | .normal => some (tex.sampleClamp u v, 1)
  | .grayscaleTint color =>
    let base := tex.sampleClamp u v
    let a := luminance base
    some (⟨F.mul color.x a, F.mul color.y a, F.mul color.z a⟩, 1)
  | .blackIsTransparent threshold =>
    let base := tex.sampleClamp u v
    let a := luminance base
    if F.le a threshold then none else some (base, 1)
  | .grayscaleTintBlackTransparent color threshold =>
    let base := tex.sampleClamp u v
    let a := luminance base
    if F.le a threshold then none
    else some (⟨F.mul color.x a, F.mul color.y a, F.mul color.z a⟩, 1)
  | .imageAlphaCutout threshold =>
    let s := tex.sampleClampRGBA u v
    if F.le s.2 threshold then none else some (s.1, 1)
  | .grayscaleTintImageAlphaCutout color threshold =>
    let s := tex.sampleClampRGBA u v
    if F.le s.2 threshold then none
    else
      let l := luminance s.1
      some (⟨F.mul color.x l, F.mul color.y l, F.mul color.z l⟩, 1)
  | .imageAlphaWindow threshold =>
    let s := tex.sampleClampRGBA u v
    let cov := if F.le s.2 threshold then (0 : F) else s.2
    some (s.1, cov)
  | .grayscaleTintImageAlphaWindow color threshold =>
    let s := tex.sampleClampRGBA u v
    let cov := if F.le s.2 threshold then (0 : F) else s.2
    let l := luminance s.1
    some (⟨F.mul color.x l, F.mul color.y l, F.mul color.z l⟩, cov)

/-- Hit record from `ray_intersect.rs`. -/
structure Intersect where
  point : FV3
  normal : FV3
  distance : F
  isIntersecting : Bool
  material : Material
  coverage : F
  objectIndex : Option ℕ
deriving DecidableEq, Repr

/-- `Intersect::empty`. -/
def Intersect.empty : Intersect :=
  ⟨FV3.zero, FV3.zero, 0, false, Material.black, 0, none⟩

/-- `Intersect::with_coverage`: a hit with explicit coverage (clamped to
`[0,1]`); `object_index` is `None`. -/
def Intersect.withCoverage (point normal : FV3) (distance : F) (material : Material)
    (coverage : F) : Intersect :=
  ⟨point, normal, distance, true, material, F.clampF coverage 0 1, none⟩

/-- Cube face tags from `cube.rs`, in the fixed order
`[+X, -X, +Y, -Y, +Z, -Z]`. -/
inductive Face where
  | posX | negX | posY | negY | posZ | negZ
deriving DecidableEq, Repr

/-- Axis-aligned textured cube from `cube.rs`.  The `[Option<FaceStyle>; 6]`
array indexed by `Face::idx` is modelled as a total map on `Face`.  A
`Slab` (missing `slab.rs`; spec section 4.2) is the same record with its
`min`/`max` occupying half of the nominal cell, so scenes are lists of
`Cube`. -/
structure Cube where
  min : QV3
  max : QV3
  material : Material
  faceTextures : Face → Option FaceStyle

/-- `Cube::from_center_size`. -/
def Cube.fromCenterSize (center size : QV3) (material : Material) : Cube :=
  { min := ⟨center.x - size.x / 2, center.y - size.y / 2, center.z - size.z / 2⟩
    max := ⟨center.x + size.x / 2, center.y + size.y / 2, center.z + size.z / 2⟩
    material := material
    faceTextures := fun _ => none }

/-- `Cube::aabb`. -/
def Cube.aabbQ (c : Cube) : QV3 × QV3 := (c.min, c.max)

/-- Slab parameter `t1` of the X axis: `(min.x - ro.x) * inv.x`. -/
def cubeTx1 (c : Cube) (ro rd : FV3) : F :=
  F.mul (F.sub (F.fin c.min.x) ro.x) (F.div 1 rd.x)

/-- Slab parameter `t2` of the X axis: `(max.x - ro.x) * inv.x`. -/
def cubeTx2 (c : Cube) (ro rd : FV3) : F :=
  F.mul (F.sub (F.fin c.max.x) ro.x) (F.div 1 rd.x)

def cubeTy1 (c : Cube) (ro rd : FV3) : F :=
  F.mul (F.sub (F.fin c.min.y) ro.y) (F.div 1 rd.y)

def cubeTy2 (c : Cube) (ro rd : FV3) : F :=
  F.mul (F.sub (F.fin c.max.y) ro.y) (F.div 1 rd.y)

def cubeTz1 (c : Cube) (ro rd : FV3) : F :=
  F.mul (F.sub (F.fin c.min.z) ro.z) (F.div 1 rd.z)

def cubeTz2 (c : Cube) (ro rd : FV3) : F :=
  F.mul (F.sub (F.fin c.max.z) ro.z) (F.div 1 rd.z)

def cubeTminX (c : Cube) (ro rd : FV3) : F := F.rmin (cubeTx1 c ro rd) (cubeTx2 c ro rd)

def cubeTmaxX (c : Cube) (ro rd : FV3) : F := F.rmax (cubeTx1 c ro rd) (cubeTx2 c ro rd)

def cubeTminY (c : Cube) (ro rd : FV3) : F := F.rmin (cubeTy1 c ro rd) (cubeTy2 c ro rd)

def cubeTmaxY (c : Cube) (ro rd : FV3) : F := F.rmax (cubeTy1 c ro rd) (cubeTy2 c ro rd)

def cubeTminZ (c : Cube) (ro rd : FV3) : F := F.rmin (cubeTz1 c ro rd) (cubeTz2 c ro rd)

def cubeTmaxZ (c : Cube) (ro rd : FV3) : F := F.rmax (cubeTz1 c ro rd) (cubeTz2 c ro rd)

/-- `t_enter = tmin_x.max(tmin_y).max(tmin_z)` from `Cube::ray_intersect`. -/
def cubeTEnter (c : Cube) (ro rd : FV3) : F :=
  F.rmax (F.rmax (cubeTminX c ro rd) (cubeTminY c ro rd)) (cubeTminZ c ro rd)

/-- `t_exit = tmax_x.min(tmax_y).min(tmax_z)` from `Cube::ray_intersect`. -/
def cubeTExit (c : Cube) (ro rd : FV3) : F :=
  F.rmin (F.rmin (cubeTmaxX c ro rd) (cubeTmaxY c ro rd)) (cubeTmaxZ c ro rd)

/-- `t_hit = if t_enter > 0 { t_enter } else { t_exit }`. -/
def cubeTHit (c : Cube) (ro rd : FV3) : F :=
  if F.lt 0 (cubeTEnter c ro rd) then cubeTEnter c ro rd else cubeTExit c ro rd

/-- Face selection from `Cube::ray_intersect`: the axis achieving `t_enter`
among the slab minima (tie-break X, then Y, then Z), signed against the
ray direction. -/
def cubeFace (c : Cube) (ro rd : FV3) : Face :=
  let tminX := cubeTminX c ro rd
  let tminY := cubeTminY c ro rd
  let tminZ := cubeTminZ c ro rd
  let tEnter := cubeTEnter c ro rd
  if F.beq tEnter tminX || (F.lt tminY tminX && F.lt tminZ tminX) then
    (if F.lt 0 rd.x then Face.negX else Face.posX)
  else if F.beq tEnter tminY || F.lt tminZ tminY then
    (if F.lt 0 rd.y then Face.negY else Face.posY)
  else
    (if F.lt 0 rd.z then Face.negZ else Face.posZ)

/-- Outward unit normal of each face. -/
def faceNormal : Face → FV3
  | .posX => ⟨F.fin 1, F.fin 0, F.fin 0⟩
  | .negX => ⟨F.fin (-1), F.fin 0, F.fin 0⟩
  | .posY => ⟨F.fin 0, F.fin 1, F.fin 0⟩
  | .negY => ⟨F.fin 0, F.fin (-1), F.fin 0⟩
  | .posZ => ⟨F.fin 0, F.fin 0, F.fin 1⟩
  | .negZ => ⟨F.fin 0, F.fin 0, F.fin (-1)⟩

/-- Per-face UV coordinates before the inset clamp, from the table in
`Cube::ray_intersect` (denominated by the box extent on the mapping axes). -/
def cubeUVraw (c : Cube) (ro rd : FV3) : F × F :=
  let p := FV3.add ro (FV3.scale rd (cubeTHit c ro rd))
  let sx := c.max.x - c.min.x
  let sy := c.max.y - c.min.y
  let sz := c.max.z - c.min.z
  match cubeFace c ro rd with
  | .posX => (F.div (F.sub p.z (F.fin c.min.z)) (F.fin sz),
              F.div (F.sub (F.fin c.max.y) p.y) (F.fin sy))
  | .negX => (F.div (F.sub (F.fin c.max.z) p.z) (F.fin sz),
              F.div (F.sub (F.fin c.max.y) p.y) (F.fin sy))
  | .posY => (F.div (F.sub p.x (F.fin c.min.x)) (F.fin sx),
              F.div (F.sub p.z (F.fin c.min.z)) (F.fin sz))
  | .negY => (F.div (F.sub p.x (F.fin c.min.x)) (F.fin sx),
              F.div (F.sub (F.fin c.max.z) p.z) (F.fin sz))
  | .posZ => (F.div (F.sub p.x (F.fin c.min.x)) (F.fin sx),
              F.div (F.sub (F.fin c.max.y) p.y) (F.fin sy))
  | .negZ => (F.div (F.sub (F.fin c.max.x) p.x) (F.fin sx),
              F.div (F.sub (F.fin c.max.y) p.y) (F.fin sy))

/-- UV coordinates after the `1e-6` inset clamp on both axes. -/
def cubeUV (c : Cube) (ro rd : FV3) : F × F :=
  let uv := cubeUVraw c ro rd
  let tiny : ℚ := 1/1000000
  (F.clampF uv.1 (F.fin tiny) (F.fin (1 - tiny)),
   F.clampF uv.2 (F.fin tiny) (F.fin (1 - tiny)))

/-- `Cube::ray_intersect` assembled from the named pieces above: slab test,
miss conditions, finiteness guard, face/UV computation, styled sampling
(whose cutout miss makes the whole intersection a miss). -/
def Cube.rayIntersect (c : Cube) (ro rd : FV3) : Intersect :=
  let tEnter := cubeTEnter c ro rd
  let tExit := cubeTExit c ro rd
  if F.lt tExit 0 || F.lt tExit tEnter then Intersect.empty
  else
    let tHit := cubeTHit c ro rd
    if !(F.isFinite tHit) then Intersect.empty
    else
      let p := FV3.add ro (FV3.scale rd tHit)
      let face := cubeFace c ro rd
      let normal := faceNormal face
      let uv := cubeUV c ro rd
      match c.faceTextures face with
      | some faceLayer =>
        match sampleWithStyle faceLayer.tex uv.1 uv.2 faceLayer.style with
        | some texCov =>
          Intersect.withCoverage p normal tHit
            { c.material with diffuse := texCov.1 } texCov.2
        | none => Intersect.empty
      | none => Intersect.withCoverage p normal tHit c.material 1

/-- Axis-aligned box with `f32` bounds, from `accel.rs`. -/
structure Aabb where
  min : FV3
  max : FV3

/-- `Aabb::union` (componentwise `f32::min`/`f32::max`). -/
def Aabb.union (a b : Aabb) : Aabb :=
  ⟨⟨F.rmin a.min.x b.min.x, F.rmin a.min.y b.min.y, F.rmin a.min.z b.min.z⟩,
   ⟨F.rmax a.max.x b.max.x, F.rmax a.max.y b.max.y, F.rmax a.max.z b.max.z⟩⟩

/-- `Aabb::intersect_ray` from `accel.rs`: slab test with pairwise swap and
interval merging, returning the entry and exit parameters. -/
def Aabb.intersectRay (bb : Aabb) (ro rd : FV3) : Option (F × F) :=
  let invx := F.div 1 rd.x
  let s1 := F.mul (F.sub bb.min.x ro.x) invx
  let s2 := F.mul (F.sub bb.max.x ro.x) invx
  let t1 := if F.lt s2 s1 then s2 else s1
  let t2 := if F.lt s2 s1 then s1 else s2
  let invy := F.div 1 rd.y
  let sy1 := F.mul (F.sub bb.min.y ro.y) invy
  let sy2 := F.mul (F.sub bb.max.y ro.y) invy
  let ty1 := if F.lt sy2 sy1 then sy2 else sy1
  let ty2 := if F.lt sy2 sy1 then sy1 else sy2
  if F.lt ty2 t1 || F.lt t2 ty1 then none
  else
    let t1 := if F.lt t1 ty1 then ty1 else t1
    let t2 := if F.lt ty2 t2 then ty2 else t2
    let invz := F.div 1 rd.z
    let sz1 := F.mul (F.sub bb.min.z ro.z) invz
    let sz2 := F.mul (F.sub bb.max.z ro.z) invz
    let tz1 := if F.lt sz2 sz1 then sz2 else sz1
    let tz2 := if F.lt sz2 sz1 then sz1 else sz2
    if F.lt tz2 t1 || F.lt t2 tz1 then none
    else
      let t1 := if F.lt t1 tz1 then tz1 else t1
      let t2 := if F.lt tz2 t2 then tz2 else t2
      some (t1, t2)

/-- The uniform grid accelerator from `accel.rs`: padded scene bounds, cell
counts per axis (`dims`), cell extents, and per-cell object index lists. -/
structure UniformGridAccel where
  bounds : Aabb
  nx : ℤ
  ny : ℤ
  nz : ℤ
  cellSize : FV3
  cells : List (List ℕ)

/-- `UniformGridAccel::cell_index`. -/
def cellIndex (g : UniformGridAccel) (ix iy iz : ℤ) : ℕ :=
  ((iz * g.ny + iy) * g.nx + ix).toNat

/-- The grid padding `1e-4` used by `build`. -/
def gridPad : ℚ := 1/10000

/-- Integer cell coordinate of a value: `((v - bounds.min)/cell_size)
.floor() as i32`. -/
def cellCoord (v bmin cs : F) : ℤ := (F.floorF (F.div (F.sub v bmin) cs)).toI32

/-- Inclusive integer range `lo..=hi` as a list (empty when `hi < lo`). -/
def rangeZI (lo hi : ℤ) : List ℤ := (List.range (hi + 1 - lo).toNat).map fun k => lo + k

/-- Step 1 of `UniformGridAccel::build`: union of all object AABBs starting
from the inverted infinite box, padded by `1e-4` on all sides. -/
def buildBounds (objects : List Cube) : Aabb :=
  let base : Aabb := ⟨⟨F.pinf, F.pinf, F.pinf⟩, ⟨F.ninf, F.ninf, F.ninf⟩⟩
  let u := objects.foldl (fun bb o => Aabb.union bb ⟨o.min.toF, o.max.toF⟩) base
  ⟨FV3.sub u.min (QV3.toF ⟨gridPad, gridPad, gridPad⟩),
   FV3.add u.max (QV3.toF ⟨gridPad, gridPad, gridPad⟩)⟩

/-- `UniformGridAccel::build`: bounds, dims (`max(1, ceil(extent/desired))`
per axis), cell size `extent/dims`, and insertion of every object index
into each cell its AABB covers (ranges clamped to the grid). -/
def UniformGridAccel.build (objects : List Cube) (desiredCellSize : ℚ) :
    UniformGridAccel :=
  let bounds := buildBounds objects
  let ext := FV3.sub bounds.max bounds.min
  let nx := max ((F.ceilF (F.div ext.x (F.fin desiredCellSize))).toI32) 1
  let ny := max ((F.ceilF (F.div ext.y (F.fin desiredCellSize))).toI32) 1
  let nz := max ((F.ceilF (F.div ext.z (F.fin desiredCellSize))).toI32) 1
  let cellSize : FV3 :=
    ⟨F.div ext.x (F.fin (nx : ℚ)), F.div ext.y (F.fin (ny : ℚ)), F.div ext.z (F.fin (nz : ℚ))⟩
  let total := nx.toNat * ny.toNat * nz.toNat
  let cells0 := List.replicate total ([] : List ℕ)
  let cells := objects.enum.foldl
    (fun cells ia =>
      let i := ia.1
      let a := ia.2
      let minIx := cellCoord (F.fin a.min.x) bounds.min.x cellSize.x
      let minIy := cellCoord (F.fin a.min.y) bounds.min.y cellSize.y
      let minIz := cellCoord (F.fin a.min.z) bounds.min.z cellSize.z
      let maxIx := cellCoord (F.fin a.max.x) bounds.min.x cellSize.x
      let maxIy := cellCoord (F.fin a.max.y) bounds.min.y cellSize.y
      let maxIz := cellCoord (F.fin a.max.z) bounds.min.z cellSize.z
      (rangeZI (max minIz 0) (min maxIz (nz - 1))).foldl (fun cells iz =>
        (rangeZI (max minIy 0) (min maxIy (ny - 1))).foldl (fun cells iy =>
          (rangeZI (max minIx 0) (min maxIx (nx - 1))).foldl (fun cells ix =>
            let idx := ((iz * ny + iy) * nx + ix).toNat
            cells.set idx (cells.getD idx [] ++ [i])) cells) cells) cells)
    cells0
  { bounds := bounds, nx := nx, ny := ny, nz := nz, cellSize := cellSize, cells := cells }

/-- Static per-ray data of the Amanatides-Woo walk: axis steps, per-cell
parameter increments, and the grid exit parameter. -/
structure DDAStatic where
  stepX : ℤ
  stepY : ℤ
  stepZ : ℤ
  tDeltaX : F
  tDeltaY : F
  tDeltaZ : F
  tExit : F

/-- Mutable state of the Amanatides-Woo walk: cell indices, the entry
parameter of the current cell, and the absolute next-boundary parameters. -/
structure DDACursor where
  ix : ℤ
  iy : ℤ
  iz : ℤ
  tEnter : F
  tMaxX : F
  tMaxY : F
  tMaxZ : F

/-- The traversal epsilon `1e-4` from `trace`/`occluded`. -/
def gridEps : F := F.fin (1/10000)

/-- Shared prologue of `trace` and `occluded` (both duplicate it in the
source): ray/bounds intersection, entry clamp, starting cell, steps,
absolute `tMax` values and `tDelta`s (infinite on zero-step axes). -/
def ddaInit (g : UniformGridAccel) (ro rd : FV3) : Option (DDAStatic × DDACursor) :=
  match g.bounds.intersectRay ro rd with
  | none => none
  | some te =>
    if F.lt te.2 0 then none
    else
      let tEnter := if F.lt te.1 0 then (0 : F) else te.1
      let pos := FV3.add ro (FV3.scale rd tEnter)
      let ix := clampZ (cellCoord pos.x g.bounds.min.x g.cellSize.x) 0 (g.nx - 1)
      let iy := clampZ (cellCoord pos.y g.bounds.min.y g.cellSize.y) 0 (g.ny - 1)
      let iz := clampZ (cellCoord pos.z g.bounds.min.z g.cellSize.z) 0 (g.nz - 1)
      let stepX : ℤ := if F.lt 0 rd.x then 1 else if F.lt rd.x 0 then -1 else 0
      let stepY : ℤ := if F.lt 0 rd.y then 1 else if F.lt rd.y 0 then -1 else 0
      let stepZ : ℤ := if F.lt 0 rd.z then 1 else if F.lt rd.z 0 then -1 else 0
      let nextX := F.add g.bounds.min.x
        (F.mul (F.fin (((ix + if 0 < stepX then 1 else 0) : ℤ) : ℚ)) g.cellSize.x)
      let nextY := F.add g.bounds.min.y
        (F.mul (F.fin (((iy + if 0 < stepY then 1 else 0) : ℤ) : ℚ)) g.cellSize.y)
      let nextZ := F.add g.bounds.min.z
        (F.mul (F.fin (((iz + if 0 < stepZ then 1 else 0) : ℤ) : ℚ)) g.cellSize.z)
      let tMaxX := if stepX ≠ 0 then F.add tEnter (F.div (F.sub nextX pos.x) rd.x) else F.pinf
      let tMaxY := if stepY ≠ 0 then F.add tEnter (F.div (F.sub nextY pos.y) rd.y) else F.pinf
      let tMaxZ := if stepZ ≠ 0 then F.add tEnter (F.div (F.sub nextZ pos.z) rd.z) else F.pinf
      let tDeltaX := if stepX ≠ 0 then F.div g.cellSize.x (F.abs rd.x) else F.pinf
      let tDeltaY := if stepY ≠ 0 then F.div g.cellSize.y (F.abs rd.y) else F.pinf
      let tDeltaZ := if stepZ ≠ 0 then F.div g.cellSize.z (F.abs rd.z) else F.pinf
      some (⟨stepX, stepY, stepZ, tDeltaX, tDeltaY, tDeltaZ, te.2⟩,
            ⟨ix, iy, iz, tEnter, tMaxX, tMaxY, tMaxZ⟩)

/-- One Amanatides-Woo step: advance the axis with the smallest `tMax`
(ties prefer Y over X, then Z, exactly as the nested `if`s in the source);
`none` when the new index leaves the grid. -/
def ddaStep (g : UniformGridAccel) (st : DDAStatic) (c : DDACursor) : Option DDACursor :=
  if F.lt c.tMaxX c.tMaxY then
    if F.lt c.tMaxX c.tMaxZ then
      let ix := c.ix + st.stepX
      if ix < 0 || g.nx ≤ ix then none
      else some { c with ix := ix, tEnter := c.tMaxX, tMaxX := F.add c.tMaxX st.tDeltaX }
    else
      let iz := c.iz + st.stepZ
      if iz < 0 || g.nz ≤ iz then none
      else some { c with iz := iz, tEnter := c.tMaxZ, tMaxZ := F.add c.tMaxZ st.tDeltaZ }
  else
    if F.lt c.tMaxY c.tMaxZ then
      let iy := c.iy + st.stepY
      if iy < 0 || g.ny ≤ iy then none
      else some { c with iy := iy, tEnter := c.tMaxY, tMaxY := F.add c.tMaxY st.tDeltaY }
    else
      let iz := c.iz + st.stepZ
      if iz < 0 || g.nz ≤ iz then none
      else some { c with iz := iz, tEnter := c.tMaxZ, tMaxZ := F.add c.tMaxZ st.tDeltaZ }

/-- Closest-hit update for one object index of the current cell: accept an
intersecting hit with `distance >= t_enter - eps` that beats the best so
far.  Rust indexes `objects[obj_idx]` (always in range for a grid built
over the same list); the model skips an out-of-range index. -/
def traceCellStep (objects : List Cube) (ro rd : FV3) (tEnter : F)
    (acc : Intersect × F) (objIdx : ℕ) : Intersect × F :=
  match objects.get? objIdx with
  | none => acc
  | some c =>
    let i := c.rayIntersect ro rd
    if i.isIntersecting && F.le (F.sub tEnter gridEps) i.distance && F.lt i.distance acc.2
    then (i, i.distance) else acc

/-- Fuel strictly dominating the number of cells any walk can visit: each
iteration either breaks or moves one axis index monotonically toward a
grid boundary. -/
def gridFuel (g : UniformGridAccel) : ℕ := (g.nx + g.ny + g.nz).toNat + 2

/-- The closest-hit loop of `UniformGridAccel::trace`: test the current
cell, break once the best hit is at or before the cell exit, otherwise
step; breaking, leaving the grid, or passing the grid exit returns the
best hit so far. -/
def traceLoop (objects : List Cube) (g : UniformGridAccel) (ro rd : FV3)
    (st : DDAStatic) : ℕ → DDACursor → Intersect × F → Intersect
  | 0, _, acc => acc.1
  | fuel+1, cur, acc =>
    let acc2 := (g.cells.getD (cellIndex g cur.ix cur.iy cur.iz) []).foldl
      (traceCellStep objects ro rd cur.tEnter) acc
    let tCellExit := F.rmin (F.rmin cur.tMaxX cur.tMaxY) cur.tMaxZ
    if F.le acc2.2 tCellExit then acc2.1
    else
      match ddaStep g st cur with
      | none => acc2.1
      | some cur2 =>
        if F.lt st.tExit cur2.tEnter then acc2.1
        else traceLoop objects g ro rd st fuel cur2 acc2

/-- `UniformGridAccel::trace`: Amanatides-Woo closest-hit query. -/
def UniformGridAccel.trace (g : UniformGridAccel) (ro rd : FV3)
    (objects : List Cube) : Intersect :=
  match ddaInit g ro rd with
  | none => Intersect.empty
  | some sc => traceLoop objects g ro rd sc.1 (gridFuel g) sc.2 (Intersect.empty, F.pinf)

/-- Shadow test for one object index of the current cell: an intersecting
hit with distance in `(eps, max_t)`. -/
def occludedCellHit (objects : List Cube) (ro rd : FV3) (maxT : F) (objIdx : ℕ) : Bool :=
  match objects.get? objIdx with
  | none => false
  | some c =>
    let i := c.rayIntersect ro rd
    i.isIntersecting && F.lt gridEps i.distance && F.lt i.distance maxT

/-- The any-hit loop of `UniformGridAccel::occluded`: return true on the
first qualifying hit, false when the cell exit reaches `max_t`, the walk
leaves the grid, or the grid exit is passed. -/
def occludedLoop (objects : List Cube) (g : UniformGridAccel) (ro rd : FV3)
    (maxT : F) (st : DDAStatic) : ℕ → DDACursor → Bool
  | 0, _ => false
  | fuel+1, cur =>
    if (g.cells.getD (cellIndex g cur.ix cur.iy cur.iz) []).any
        (occludedCellHit objects ro rd maxT) then true
    else
      let tCellExit := F.rmin (F.rmin cur.tMaxX cur.tMaxY) cur.tMaxZ
      if F.le maxT tCellExit then false
      else
        match ddaStep g st cur with
        | none => false
        | some cur2 =>
          if F.lt st.tExit cur2.tEnter then false
          else occludedLoop objects g ro rd maxT st fuel cur2

/-- `UniformGridAccel::occluded`: Amanatides-Woo any-hit (shadow) query. -/
def UniformGridAccel.occluded (g : UniformGridAccel) (ro rd : FV3) (maxT : F)
    (objects : List Cube) : Bool :=
  match ddaInit g ro rd with
  | none => false
  | some sc => occludedLoop objects g ro rd maxT sc.1 (gridFuel g) sc.2

/-- One step of the claim C1 referee: keep an intersecting hit that beats
the best distance so far. -/
def scanStep (ro rd : FV3) (acc : Intersect × F) (c : Cube) : Intersect × F :=
  let i := c.rayIntersect ro rd
  if i.isIntersecting && F.lt i.distance acc.2 then (i, i.distance) else acc

/-- The referee of claim C1: a linear scan over all objects keeping the
intersecting hit with minimal distance (first object wins ties), stated
from the spec's words. -/
def linearScanClosest (objects : List Cube) (ro rd : FV3) : Intersect :=
  (objects.foldl (scanStep ro rd) (Intersect.empty, F.pinf)).1

/-- The referee of claim C2: a linear scan finds some object whose hit
distance lies strictly between `eps = 1e-4` and `max_t`, stated from the
spec's words. -/
def linearScanOccluded (objects : List Cube) (ro rd : FV3) (maxT : F) : Bool :=
  objects.any fun c =>
    let i := c.rayIntersect ro rd
    i.isIntersecting && F.lt gridEps i.distance && F.lt i.distance maxT

/-- Six-face cubemap from `skybox.rs`. -/
structure Skybox where
  posx : Texture
  negx : Texture
  posy : Texture
  negy : Texture
  posz : Texture
  negz : Texture

/-- `Skybox::sample`: normalize the direction, pick the dominant-axis face,
project to `(sc, tc, ma)`, compute `u = (sc/ma+1)/2`, `v_raw = (tc/ma+1)/2`
and apply the per-face flips exactly as the source does (the X branch
contains a shadowed duplicate `let u`, reproduced by shadowing here), then
sample with clamping. -/
def Skybox.sample (sqrtF : F → F) (sb : Skybox) (dir : FV3) : FV3 :=
  let r := dir.normalized sqrtF
  let ax := F.abs r.x
  let ay := F.abs r.y
  let az := F.abs r.z
  if F.le ay ax && F.le az ax then
    let tex := if F.lt 0 r.x then sb.posx else sb.negx
    let sc := if F.lt 0 r.x then F.neg r.z else r.z
    let tc := F.neg r.y
    let ma := ax
    let u := F.mul (F.add (F.div sc ma) 1) (F.fin (1/2))
    let vRaw := F.mul (F.add (F.div tc ma) 1) (F.fin (1/2))
    let v := vRaw
    let u := F.sub 1 u
    tex.sampleClamp u v
  else if F.le ax ay && F.le az ay then
    let tex := if F.lt 0 r.y then sb.posy else sb.negy
    let sc := r.x
    let tc := if F.lt 0 r.y then r.z else F.neg r.z
    let ma := ay
    let u := F.mul (F.add (F.div sc ma) 1) (F.fin (1/2))
    let vRaw := F.mul (F.add (F.div tc ma) 1) (F.fin (1/2))
    let v := F.sub 1 vRaw
    tex.sampleClamp u v
  else
    let tex := if F.lt 0 r.z then sb.posz else sb.negz
    let sc := if F.lt 0 r.z then r.x else F.neg r.x
    let tc := F.neg r.y
    let ma := az
    let u := F.mul (F.add (F.div sc ma) 1) (F.fin (1/2))
    let vRaw := F.mul (F.add (F.div tc ma) 1) (F.fin (1/2))
    let v := vRaw
    let u := F.sub 1 u
    tex.sampleClamp u v

/-- Light kind from `light.rs`. -/
inductive LightKind where
  | point
  | directional

/-- Light from `light.rs`: the `direction` points along the light's
travel. -/
structure Light where
  kind : LightKind
  position : FV3
  direction : FV3
  color : Color8
  intensity : F

/-- raylib's `Vector3::length` (external collaborator): square root of the
dot product, via the abstract square-root parameter. -/
def FV3.length (sqrtF : F → F) (v : FV3) : F := sqrtF (FV3.dot v v)

/-- `Light::at`: unit vector from the point toward the source and the
source distance (infinite for a directional light; a point light sitting
exactly on the point yields the downward fallback). -/
def Light.at (sqrtF : F → F) (l : Light) (point : FV3) : FV3 × F :=
  match l.kind with
  | .point =>
    let toL := FV3.sub l.position point
    let dist := toL.length sqrtF
    if F.lt 0 dist then (toL.sdiv dist, dist) else (⟨0, F.fin (-1), 0⟩, 0)
  | .directional => (l.direction.neg, F.pinf)

/-- `ORIGIN_BIAS = 1e-3` from `main.rs`. -/
def originBias : F := F.fin (1/1000)

/-- `main.rs::reflect`. -/
def reflectV (incident normal : FV3) : FV3 :=
  FV3.sub incident (FV3.scale (FV3.scale normal 2) (FV3.dot incident normal))

/-- `main.rs::refract`: Snell with index swap when hitting from inside and
`none` on total internal reflection (the caller falls back to reflection). -/
def refractV (sqrtF : F → F) (incident normal : FV3) (refractiveIndex : F) :
    Option FV3 :=
  let cosi := F.rmin (F.rmax (FV3.dot incident normal) (F.fin (-1))) 1
  let swap := F.lt 0 cosi
  let etai := if swap then refractiveIndex else (1 : F)
  let etat := if swap then (1 : F) else refractiveIndex
  let n := if swap then normal.neg else normal
  let cosi := if swap then cosi else F.neg cosi
  let eta := F.div etai etat
  let k := F.sub 1 (F.mul (F.mul eta eta) (F.sub 1 (F.mul cosi cosi)))
  if F.lt k 0 then none
  else some (FV3.add (FV3.scale incident eta)
    (FV3.scale n (F.sub (F.mul eta cosi) (sqrtF k))))

/-- `main.rs::offset_origin`: displace the hit point along the normal, with
the sign chosen by the side the new ray leaves on. -/
def offsetOrigin (i : Intersect) (direction : FV3) : FV3 :=
  let offset := FV3.scale i.normal originBias
  if F.lt (FV3.dot direction i.normal) 0 then FV3.sub i.point offset
  else FV3.add i.point offset

/-- `main.rs::lerp`. -/
def lerpV (a b : FV3) (t : F) : FV3 :=
  FV3.add (FV3.scale a (F.sub 1 t)) (FV3.scale b t)

/-- `main.rs::smooth5`: the quintic smoothstep on the clamped argument. -/
def smooth5 (t : F) : F :=
  let t := F.clampF t 0 1
  F.mul (F.mul (F.mul t t) t) (F.add (F.mul t (F.sub (F.mul t 6) 15)) 10)

/-- `main.rs::procedural_sky`: the fallback sky gradient with glow and
haze, clamped to `[0,1]` per channel. -/
def proceduralSky (sqrtF : F → F) (powF : F → F → F) (dir : FV3) : FV3 :=
  let d := dir.normalized sqrtF
  let t := F.clampF (F.add (F.mul d.y (F.fin (1/2))) (F.fin (1/2))) 0 1
  let horizon : FV3 := ⟨F.fin (8/100), F.fin (4/100), F.fin (12/100)⟩
  let mid : FV3 := ⟨F.fin (3/100), F.fin (15/1000), F.fin (6/100)⟩
  let top : FV3 := ⟨F.fin (15/1000), F.fin (10/1000), F.fin (30/1000)⟩
  let c := if F.lt t (F.fin (6/10)) then
      lerpV horizon mid (smooth5 (F.div t (F.fin (6/10))))
    else
      lerpV mid top (smooth5 (F.div (F.sub t (F.fin (6/10))) (F.fin (4/10))))
  let h := F.clampF (F.sub 1 t) 0 1
  let glow := powF h 5
  let glowCol : FV3 := ⟨F.fin (20/100), F.fin (5/100), F.fin (15/100)⟩
  let c := FV3.add c (FV3.scale glowCol (F.mul (F.fin (8/100)) glow))
  let haze := F.mul (powF (F.sub 1 t) 2) (F.fin (3/100))
  let c := FV3.add c ⟨F.mul haze (F.fin (6/10)), F.mul haze (F.fin (3/10)), haze⟩
  ⟨F.clampF c.x 0 1, F.clampF c.y 0 1, F.clampF c.z 0 1⟩

/-- `main.rs::sample_background`: the skybox when loaded, the procedural
sky otherwise. -/
def sampleBackground (sqrtF : F → F) (powF : F → F → F) (rayDirection : FV3)
    (skybox : Option Skybox) : FV3 :=
  match skybox with
  | some sb => sb.sample sqrtF rayDirection
  | none => proceduralSky sqrtF powF rayDirection

/-- `main.rs::cast_shadow`: 1 when the shadow ray toward the light is
occluded within the light distance, else 0. -/
def castShadow (sqrtF : F → F) (intersect : Intersect) (light : Light)
    (objects : List Cube) (accel : UniformGridAccel) : F :=
  let ld := light.at sqrtF intersect.point
  let shadowRayOrigin := offsetOrigin intersect ld.1
  if accel.occluded shadowRayOrigin ld.1 ld.2 objects then 1 else 0

/-- The preview override material from `cast_ray`. -/
def previewMaterial : Material :=
  Material.new ⟨F.fin (9/10), F.fin (3/10), F.fin (3/10)⟩ 8 1 0 0 0 1

/-- The hit processed by `cast_ray`: the grid's closest hit, with the
preview material override applied when the hovered index matches the hit's
`object_index`. -/
def processedHit (accel : UniformGridAccel) (objects : List Cube)
    (preview : Option ℕ) (ro rd : FV3) : Intersect :=
  let intersect := accel.trace ro rd objects
  match preview with
  | some hoveredIdx =>
    if intersect.isIntersecting && (intersect.objectIndex == some hoveredIdx) then
      { intersect with material := previewMaterial, coverage := 1 }
    else intersect
  | none => intersect

/-- The light color converted to `[0,1]` floats. -/
def lightColorV3 (l : Light) : FV3 :=
  ⟨F.fin ((l.color.r : ℚ) / 255), F.fin ((l.color.g : ℚ) / 255),
   F.fin ((l.color.b : ℚ) / 255)⟩

/-- `light.intensity * (1 - shadow_intensity)` from `cast_ray`. -/
def lightIntensityAt (sqrtF : F → F) (l : Light) (i : Intersect)
    (objects : List Cube) (accel : UniformGridAccel) : F :=
  F.mul l.intensity (F.sub 1 (castShadow sqrtF i l objects accel))

/-- Half-Lambert diffuse factor times the light intensity, from
`cast_ray`. -/
def diffuseIntensity (sqrtF : F → F) (l : Light) (i : Intersect)
    (objects : List Cube) (accel : UniformGridAccel) : F :=
  F.mul
    (F.clampF
      (F.div (F.add (FV3.dot i.normal (l.at sqrtF i.point).1) (F.fin (3/10)))
        (F.fin (13/10))) 0 1)
    (lightIntensityAt sqrtF l i objects accel)

/-- Phong specular factor times the light intensity, from `cast_ray`. -/
def specularIntensity (sqrtF : F → F) (powF : F → F → F) (l : Light)
    (i : Intersect) (objects : List Cube) (accel : UniformGridAccel)
    (ro : FV3) : F :=
  let lightDir := (l.at sqrtF i.point).1
  let viewDir := (FV3.sub ro i.point).normalized sqrtF
  let reflLight := (reflectV lightDir.neg i.normal).normalized sqrtF
  F.mul (powF (F.rmax (FV3.dot viewDir reflLight) 0) i.material.specular)
    (lightIntensityAt sqrtF l i objects accel)

/-- `phong_color` from `cast_ray`: diffuse plus constant ambient, weighted
by `albedo[0] * coverage`, plus specular weighted by
`albedo[1] * coverage`. -/
def phongColor (sqrtF : F → F) (powF : F → F → F) (l : Light) (i : Intersect)
    (objects : List Cube) (accel : UniformGridAccel) (ro : FV3) : FV3 :=
  let diffuse := FV3.scale i.material.diffuse (diffuseIntensity sqrtF l i objects accel)
  let specular := FV3.scale (lightColorV3 l)
    (specularIntensity sqrtF powF l i objects accel ro)
  FV3.add
    (FV3.scale (FV3.add diffuse (FV3.scale i.material.diffuse (F.fin (15/100))))
      (F.mul i.material.albedo0 i.coverage))
    (FV3.scale specular (F.mul i.material.albedo1 i.coverage))

/-- `transparency` as computed by `cast_ray` from the hit:
`clamp(0,1, (1 - coverage) + albedo[3] * coverage)`. -/
def transparencyOf (i : Intersect) : F :=
  F.clampF (F.add (F.sub 1 i.coverage) (F.mul i.material.albedo3 i.coverage)) 0 1

/-- The spec's combined transparency formula, stated from the spec's words
for comparison with the code's computation. -/
def specTransparency (coverage albedo3 : F) : F :=
  F.clampF (F.add (F.sub 1 coverage) (F.mul albedo3 coverage)) 0 1

/-- `k_phong = max(0, 1 - reflectivity - transparency)` from `cast_ray`. -/
def kPhongOf (i : Intersect) : F :=
  F.rmax (F.sub (F.sub 1 i.material.albedo2) (transparencyOf i)) 0

/-- The mirror glint toward the light from `cast_ray`: visibility-gated
narrow specular with inverse-square falloff for point lights and no
falloff for directional lights. -/
def glintColor (sqrtF : F → F) (powF : F → F → F) (l : Light) (i : Intersect)
    (objects : List Cube) (accel : UniformGridAccel) (rd : FV3) : FV3 :=
  let mirrorDir := (reflectV rd i.normal).normalized sqrtF
  let mirrorOrigin := offsetOrigin i mirrorDir
  let reflBias := F.rmin (F.add i.material.albedo2 (F.fin (5/100))) 1
  match l.kind with
  | .point =>
    let toL := FV3.sub l.position mirrorOrigin
    let dist := toL.length sqrtF
    if F.lt 0 dist then
      let ldir := toL.sdiv dist
      let align := F.rmax (FV3.dot mirrorDir ldir) 0
      if F.lt 0 align && !(accel.occluded mirrorOrigin ldir dist objects) then
        let falloff := F.div 1 (F.add 1 (F.mul dist dist))
        let s := F.mul (F.mul (F.mul (F.mul 1 l.intensity) falloff)
          (powF align (F.fin 800))) reflBias
        FV3.scale (lightColorV3 l) s
      else FV3.zero
    else FV3.zero
  | .directional =>
    let ldir := l.direction.neg
    let align := F.rmax (FV3.dot mirrorDir ldir) 0
    if F.lt 0 align && !(accel.occluded mirrorOrigin ldir F.pinf objects) then
      let s := F.mul (F.mul (F.mul 1 l.intensity) (powF align (F.fin 800))) reflBias
      FV3.scale (lightColorV3 l) s
    else FV3.zero

/-- `main.rs::cast_ray`, recursive on the depth with the `depth > 3` sky
cutoff; every recursive leg passes `depth + 1`, which is exactly what makes
the recursion well-founded on `4 - depth`.  The irrational primitives
(square root and `powf`) are abstract parameters. -/
def castRay (sqrtF : F → F) (powF : F → F → F) (objects : List Cube)
    (accel : UniformGridAccel) (light : Light) (preview : Option ℕ)
    (skybox : Option Skybox) (ro rd : FV3) (depth : ℕ) : FV3 :=
  if h : 3 < depth then sampleBackground sqrtF powF rd skybox
  else
    let intersect := processedHit accel objects preview ro rd
    if intersect.isIntersecting = false then sampleBackground sqrtF powF rd skybox
    else
      let reflectivity := intersect.material.albedo2
      let transparency := transparencyOf intersect
      let reflectColor :=
        if F.lt 0 reflectivity then
          let rdir := (reflectV rd intersect.normal).normalized sqrtF
          castRay sqrtF powF objects accel light preview skybox
            (offsetOrigin intersect rdir) rdir (depth + 1)
        else FV3.zero
      let refractColor :=
        if F.lt 0 transparency then
          match refractV sqrtF rd intersect.normal intersect.material.refractiveIndex with
          | some tdir =>
            castRay sqrtF powF objects accel light preview skybox
              (offsetOrigin intersect tdir) tdir (depth + 1)
          | none =>
            let rdir := (reflectV rd intersect.normal).normalized sqrtF
            castRay sqrtF powF objects accel light preview skybox
              (offsetOrigin intersect rdir) rdir (depth + 1)
        else FV3.zero
      FV3.add
        (FV3.add
          (FV3.add
            (FV3.scale (phongColor sqrtF powF light intersect objects accel ro)
              (kPhongOf intersect))
            (FV3.scale reflectColor reflectivity))
          (FV3.scale refractColor transparency))
        (glintColor sqrtF powF light intersect objects accel rd)
termination_by 4 - depth
decreasing_by all_goals omega

/-- Orbital camera configuration from `camera.rs`. -/
structure CameraConfig where
  orbitSensitivityYaw : ℚ
  orbitSensitivityPitch : ℚ
  zoomSensitivity : ℚ
  minPitch : ℚ
  maxPitch : ℚ
  minDistance : ℚ
  maxDistance : ℚ

/-- `f32::clamp` on the finite values the camera uses (the `lo <= hi`
panic precondition is implicit). -/
def clampQ (x lo hi : ℚ) : ℚ := if x < lo then lo else if hi < x then hi else x

/-- The exact value of the `f32` constant `std::f32::consts::PI`. -/
def f32PI : ℚ := 13176795/4194304

/-- The orbital camera state from `camera.rs`.  Only `yaw`, `pitch`,
`distance` and the config are modelled: the derived `eye`/`forward`/
`right`/`up` vectors are recomputed from these by trigonometry and never
feed back into them, so the mutation claims are about these fields. -/
structure Camera where
  yaw : ℚ
  pitch : ℚ
  distance : ℚ
  config : CameraConfig

/-- `Camera::clamp_angles_and_distance`. -/
def Camera.clampAnglesAndDistance (c : Camera) : Camera :=
  { c with
    pitch := clampQ c.pitch c.config.minPitch c.config.maxPitch
    distance := clampQ c.distance c.config.minDistance c.config.maxDistance }

/-- `Camera::orbit`: scaled yaw/pitch increments, single-step yaw wrap (one
conditional subtraction of `2*PI`, one conditional addition), then the
pitch/distance clamp. -/
def Camera.orbit (c : Camera) (deltaYaw deltaPitch : ℚ) : Camera :=
  let yaw := c.yaw + deltaYaw * c.config.orbitSensitivityYaw
  let pitch := c.pitch + deltaPitch * c.config.orbitSensitivityPitch
  let yaw := if yaw > f32PI then yaw - 2 * f32PI else yaw
  let yaw := if yaw < -f32PI then yaw + 2 * f32PI else yaw
  Camera.clampAnglesAndDistance { c with yaw := yaw, pitch := pitch }

/-- `Camera::zoom`: scaled distance increment then the clamp. -/
def Camera.zoom (c : Camera) (amount : ℚ) : Camera :=
  Camera.clampAnglesAndDistance
    { c with distance := c.distance + amount * c.config.zoomSensitivity }

/-- The reflection leg of `cast_ray`: recurse along the reflected
direction when reflectivity is positive, else black. -/
def reflectLeg (sqrtF : F → F) (powF : F → F → F) (objects : List Cube)
    (accel : UniformGridAccel) (light : Light) (preview : Option ℕ)
    (skybox : Option Skybox) (i : Intersect) (rd : FV3) (depth : ℕ) : FV3 :=
  if F.lt 0 i.material.albedo2 then
    let rdir := (reflectV rd i.normal).normalized sqrtF
    castRay sqrtF powF objects accel light preview skybox
      (offsetOrigin i rdir) rdir (depth + 1)
  else FV3.zero

/-- The refraction leg of `cast_ray`: recurse along the Snell direction
when transparency is positive, falling back to the reflected direction on
total internal reflection, else black. -/
def refractLeg (sqrtF : F → F) (powF : F → F → F) (objects : List Cube)
    (accel : UniformGridAccel) (light : Light) (preview : Option ℕ)
    (skybox : Option Skybox) (i : Intersect) (rd : FV3) (depth : ℕ) : FV3 :=
  if F.lt 0 (transparencyOf i) then
    match refractV sqrtF rd i.normal i.material.refractiveIndex with
    | some tdir =>
      castRay sqrtF powF objects accel light preview skybox
        (offsetOrigin i tdir) tdir (depth + 1)
    | none =>
      let rdir := (reflectV rd i.normal).normalized sqrtF
      castRay sqrtF powF objects accel light preview skybox
        (offsetOrigin i rdir) rdir (depth + 1)
  else FV3.zero

/-- A cube with no face textures. -/
def plainCube (mn mx : QV3) (mat : Material) : Cube :=
  ⟨mn, mx, mat, fun _ => none⟩

/-- The `stone` material of `main.rs`. -/
def stoneMaterial : Material :=
  Material.new ⟨F.fin (55/100), F.fin (55/100), F.fin (55/100)⟩ 20
    (F.fin (90/100)) (F.fin (10/100)) 0 0 0

/-- The unit cube centered at the origin. -/
def unitCube : Cube := plainCube ⟨-1/2, -1/2, -1/2⟩ ⟨1/2, 1/2, 1/2⟩ stoneMaterial

/-- Counterexample scene for claims C1 and C2, first filler: a small cube
at the low corner pinning the scene bounds to `[0,2]^3`. -/
def cexFillerA : Cube := plainCube ⟨0, 0, 0⟩ ⟨1/10, 1/10, 1/10⟩ stoneMaterial

/-- Counterexample scene, second filler: a small cube at the high corner
pinning the scene bounds to `[0,2]^3`. -/
def cexFillerB : Cube := plainCube ⟨19/10, 19/10, 19/10⟩ ⟨2, 2, 2⟩ stoneMaterial

/-- Counterexample scene, the decisive object: a box whose minimal corner
sits exactly on the grid-cell corner `(bmin + 1*cs, bmin + 2*cs)` in XY.
The padded bounds are `[-1e-4, 2.0001]^3` and the cell size is
`2.0002/3 = 10001/15000`, so the corner is `(19999/30000, 40001/30000)`. -/
def cexCorner : Cube :=
  plainCube ⟨19999/30000, 40001/30000, 0⟩ ⟨25999/30000, 46001/30000, 1⟩ stoneMaterial

/-- The counterexample scene for claims C1 and C2. -/
def cexScene : List Cube := [cexFillerA, cexFillerB, cexCorner]

/-- Its uniform grid, built as `main.rs` does with desired cell size 1. -/
def cexAccel : UniformGridAccel := UniformGridAccel.build cexScene 1

/-- The counterexample ray origin: on the diagonal through the cell corner,
one third of a unit before it. -/
def cexRayO : FV3 := QV3.toF ⟨3333/10000, 16667/10000, 1/2⟩

/-- The counterexample ray direction `(1, -1, 0)`: it grazes `cexCorner`
tangentially exactly at its minimal corner, which lies on a cell corner;
the DDA's tie-stepping (Y before X) walks around the one cell that lists
the object, so the grid never tests it. -/
def cexRayD : FV3 := QV3.toF ⟨1, -1, 0⟩

/-- A one-cube scene used for hit witnesses. -/
def wScene : List Cube := [unitCube]

/-- Its uniform grid with desired cell size 1. -/
def wAccel : UniformGridAccel := UniformGridAccel.build wScene 1

/-- A ray from `(0,0,2)` straight at the cube. -/
def wRayO : FV3 := QV3.toF ⟨0, 0, 2⟩

/-- The direction of the witness ray. -/
def wRayD : FV3 := QV3.toF ⟨0, 0, -1⟩

/-- The directional light of `main.rs` with its direction kept unnormalized
(the normalization is irrelevant to the witness statements). -/
def wLight : Light :=
  ⟨LightKind.directional, FV3.zero, ⟨F.fin 0, F.fin (-1), F.fin 0⟩,
   ⟨255, 255, 255, 255⟩, F.fin (12/10)⟩

/-- A concrete stand-in for the abstract square root (witnesses only need
its value at 1). -/
def oneSqrt : F → F := fun _ => F.fin 1

/-- A concrete stand-in for the abstract `powf`. -/
def onePow : F → F → F := fun _ _ => F.fin 1

/-- The camera configuration `main.rs` installs via `set_config`. -/
def mainCameraConfig : CameraConfig := ⟨1, 1, 1/2, -29/20, 29/20, 1/2, 2000⟩

/-- A camera state used by the claim C9 counterexample. -/
def cexCamera : Camera := ⟨0, 0, 10, mainCameraConfig⟩

/-- Origin of the claim C8 witness ray: beside and above the unit cube. -/
def w8RayO : FV3 := QV3.toF ⟨2, 2, 0⟩

/-- Direction of the claim C8 witness ray: parallel to the +Y face plane,
so the Y slab degenerates to `-inf` through the IEEE infinities. -/
def w8RayD : FV3 := QV3.toF ⟨-1, 0, 0⟩

/-- A one-texel texture for the claim C7 witness skybox. -/
def wTexture : Texture := ⟨1, 1, [⟨255, 128, 0, 255⟩]⟩

/-- A concrete skybox for the claim C7 witness. -/
def wSkybox : Skybox := ⟨wTexture, wTexture, wTexture, wTexture, wTexture, wTexture⟩

/-- A strictly negative extended value: `-inf` or a negative rational. -/
def NegF (a : F) : Prop := a = F.ninf ∨ ∃ q, a = F.fin q ∧ q < 0

/-- A strictly positive extended value: `+inf` or a positive rational. -/
def PosF (a : F) : Prop := a = F.pinf ∨ ∃ q, a = F.fin q ∧ 0 < q

/-- A finite strictly positive extended value. -/
def FinPos (a : F) : Prop := ∃ q, a = F.fin q ∧ 0 < q

/-- Invariant of the closest-hit accumulator: either still empty with an
infinite best distance, or exactly the `ray_intersect` record of one of
the scene's objects, with the best distance equal to its distance. -/
def TraceInv (objects : List Cube) (ro rd : FV3) (p : Intersect × F) : Prop :=
  (p.1 = Intersect.empty ∧ p.2 = F.pinf) ∨
  (∃ c ∈ objects, p.1 = c.rayIntersect ro rd ∧ p.1.isIntersecting = true ∧
    p.2 = p.1.distance)

/-- What the closest-hit loop can return: nothing, or a genuine object
hit. -/
def TraceRes (objects : List Cube) (ro rd : FV3) (r : Intersect) : Prop :=
  r = Intersect.empty ∨
  (∃ c ∈ objects, r = c.rayIntersect ro rd ∧ r.isIntersecting = true)

theorem F.lt_irrefl (a : F) : F.lt a a = false := by
  cases a <;> simp [F.lt]

theorem F.lt_trans {a b c : F} (hab : F.lt a b = true) (hbc : F.lt b c = true) :
    F.lt a c = true := by
  cases a <;> cases b <;> cases c <;>
    simp only [F.lt, decide_eq_true_eq] at hab hbc ⊢
  all_goals first
    | rfl
    | exact (Bool.false_ne_true hab).elim
    | exact (Bool.false_ne_true hbc).elim
    | exact hab.trans hbc

theorem F.lt_fin_pinf (q : ℚ) : F.lt (F.fin q) F.pinf = true := rfl

theorem F.not_lt_to_le {a b : F} (ha : a.isFinite = true) (hb : b.isFinite = true)
    (h : F.lt a b = false) : F.le b a = true := by
  cases a <;> cases b <;> simp_all [F.lt, F.le, F.isFinite]

/-- `Cube::ray_intersect` returns either the empty record or a
`with_coverage` record built at the finite `t_hit` with the selected
face's normal. -/
theorem Cube.rayIntersect_cases (c : Cube) (ro rd : FV3) :
    c.rayIntersect ro rd = Intersect.empty ∨
    ((cubeTHit c ro rd).isFinite = true ∧ ∃ mat cov,
      c.rayIntersect ro rd =
        Intersect.withCoverage (FV3.add ro (FV3.scale rd (cubeTHit c ro rd)))
          (faceNormal (cubeFace c ro rd)) (cubeTHit c ro rd) mat cov) := by
  simp only [Cube.rayIntersect]
  split
  · exact Or.inl rfl
  split
  · exact Or.inl rfl
  rename_i hfin
  split
  · split
    · exact Or.inr ⟨by simpa using hfin, _, _, rfl⟩
    · exact Or.inl rfl
  · exact Or.inr ⟨by simpa using hfin, _, _, rfl⟩

/-- A returned hit's `object_index` is always `None` (both the empty record
and `with_coverage` leave it `None`). -/
theorem Cube.rayIntersect_objectIndex (c : Cube) (ro rd : FV3) :
    (c.rayIntersect ro rd).objectIndex = none := by
  rcases Cube.rayIntersect_cases c ro rd with h | ⟨_, mat, cov, h⟩ <;>
    simp [h, Intersect.empty, Intersect.withCoverage]

/-- A returned hit's distance is the finite `t_hit` (the `is_finite` guard
ran). -/
theorem Cube.rayIntersect_distance_finite (c : Cube) (ro rd : FV3)
    (h : (c.rayIntersect ro rd).isIntersecting = true) :
    ∃ q, (c.rayIntersect ro rd).distance = F.fin q := by
  rcases Cube.rayIntersect_cases c ro rd with he | ⟨hfin, mat, cov, he⟩
  · rw [he] at h
    simp [Intersect.empty] at h
  · rw [he]
    cases hv : cubeTHit c ro rd <;> rw [hv] at hfin <;>
      simp_all [F.isFinite, Intersect.withCoverage]

theorem TraceInv.res {objects ro rd p} (h : TraceInv objects ro rd p) :
    TraceRes objects ro rd p.1 := by
  rcases h with ⟨h1, _⟩ | ⟨c, hc, h1, h2, _⟩
  · exact Or.inl h1
  · exact Or.inr ⟨c, hc, h1, h2⟩

theorem traceCellStep_inv (objects : List Cube) (ro rd : FV3) (tE : F)
    (acc : Intersect × F) (k : ℕ) (h : TraceInv objects ro rd acc) :
    TraceInv objects ro rd (traceCellStep objects ro rd tE acc k) := by
  unfold traceCellStep
  cases hg : objects.get? k with
  | none => exact h
  | some c =>
    have hmem : c ∈ objects := List.get?_mem hg
    simp only
    split
    · rename_i hcond
      simp only [Bool.and_eq_true] at hcond
      exact Or.inr ⟨c, hmem, rfl, hcond.1.1, rfl⟩
    · exact h

theorem traceCellFold_inv (objects : List Cube) (ro rd : FV3) (tE : F)
    (l : List ℕ) (acc : Intersect × F) (h : TraceInv objects ro rd acc) :
    TraceInv objects ro rd (l.foldl (traceCellStep objects ro rd tE) acc) := by
  induction l generalizing acc with
  | nil => exact h
  | cons k l ih => exact ih _ (traceCellStep_inv objects ro rd tE acc k h)

theorem traceLoop_res {objects g ro rd st} (fuel : ℕ) (cur : DDACursor)
    (acc : Intersect × F) (h : TraceInv objects ro rd acc) :
    TraceRes objects ro rd (traceLoop objects g ro rd st fuel cur acc) := by
  induction fuel generalizing cur acc with
  | zero => exact h.res
  | succ n ih =>
    simp only [traceLoop]
    have h2 := traceCellFold_inv objects ro rd cur.tEnter
      (g.cells.getD (cellIndex g cur.ix cur.iy cur.iz) []) acc h
    split
    · exact h2.res
    · split
      · exact h2.res
      · split
        · exact h2.res
        · exact ih _ _ h2

/-- Soundness of `trace` over any grid: the result is the empty record or
exactly the `ray_intersect` record of one of the objects. -/
theorem trace_res (g : UniformGridAccel) (objects : List Cube) (ro rd : FV3) :
    TraceRes objects ro rd (g.trace ro rd objects) := by
  unfold UniformGridAccel.trace
  split
  · exact Or.inl rfl
  · exact traceLoop_res _ _ _ (Or.inl ⟨rfl, rfl⟩)

theorem scanStep_inv (objects : List Cube) (ro rd : FV3) (acc : Intersect × F)
    (c : Cube) (hc : c ∈ objects) (h : TraceInv objects ro rd acc) :
    TraceInv objects ro rd (scanStep ro rd acc c) := by
  unfold scanStep
  simp only
  split
  · rename_i hcond
    simp only [Bool.and_eq_true] at hcond
    exact Or.inr ⟨c, hc, rfl, hcond.1, rfl⟩
  · exact h

theorem scanFold_inv (objects : List Cube) (ro rd : FV3) :
    ∀ (l : List Cube) (acc : Intersect × F), (∀ x ∈ l, x ∈ objects) →
      TraceInv objects ro rd acc →
      TraceInv objects ro rd (l.foldl (scanStep ro rd) acc) := by
  intro l
  induction l with
  | nil => exact fun acc _ h => h
  | cons c l ih =>
    intro acc hl h
    simp only [List.foldl_cons]
    exact ih _ (fun x hx => hl x (List.mem_cons_of_mem c hx))
      (scanStep_inv objects ro rd acc c (hl c (List.mem_cons_self c l)) h)

/-- The scan's best distance never increases along the fold. -/
theorem scanFold_mono (ro rd : FV3) (l : List Cube) (acc : Intersect × F) :
    (l.foldl (scanStep ro rd) acc).2 = acc.2 ∨
    F.lt (l.foldl (scanStep ro rd) acc).2 acc.2 = true := by
  induction l generalizing acc with
  | nil => exact Or.inl rfl
  | cons c l ih =>
    simp only [List.foldl_cons]
    have hstep : (scanStep ro rd acc c).2 = acc.2 ∨
        F.lt (scanStep ro rd acc c).2 acc.2 = true := by
      unfold scanStep
      simp only
      split
      · rename_i hcond
        simp only [Bool.and_eq_true] at hcond
        exact Or.inr hcond.2
      · exact Or.inl rfl
    rcases ih (scanStep ro rd acc c) with hm | hm <;> rcases hstep with hs | hs
    · exact Or.inl (hm.trans hs)
    · rw [hm]; exact Or.inr hs
    · rw [hs] at hm; exact Or.inr hm
    · exact Or.inr (F.lt_trans hm hs)

/-- No intersecting object beats the scan's final best distance. -/
theorem scanFold_min (ro rd : FV3) (c : Cube)
    (hhit : (c.rayIntersect ro rd).isIntersecting = true) :
    ∀ (l : List Cube) (acc : Intersect × F), c ∈ l →
    F.lt (c.rayIntersect ro rd).distance (l.foldl (scanStep ro rd) acc).2 = false := by
  intro l
  induction l with
  | nil => intro acc hc; cases hc
  | cons c0 l ih =>
    intro acc hc
    simp only [List.foldl_cons]
    rcases List.mem_cons.mp hc with rfl | hc2
    · have hstep : F.lt (c.rayIntersect ro rd).distance (scanStep ro rd acc c).2 = false := by
        unfold scanStep
        simp only
        split
        · exact F.lt_irrefl _
        · rename_i hcond
          simp only [Bool.and_eq_true, not_and, Bool.not_eq_true] at hcond
          exact hcond hhit
      cases hv : F.lt (c.rayIntersect ro rd).distance
          (l.foldl (scanStep ro rd) (scanStep ro rd acc c)).2 with
      | false => rfl
      | true =>
        rcases scanFold_mono ro rd l (scanStep ro rd acc c) with hm | hm
        · rw [hm] at hv
          rw [hv] at hstep
          cases hstep
        · have := F.lt_trans hv hm
          rw [this] at hstep
          cases hstep
    · exact ih _ hc2

/-- When some object intersects, the scan reports a genuine hit that no
object's hit distance strictly undercuts. -/
theorem linearScan_spec (objects : List Cube) (ro rd : FV3) (c : Cube)
    (hc : c ∈ objects) (hhit : (c.rayIntersect ro rd).isIntersecting = true) :
    (∃ cs ∈ objects, linearScanClosest objects ro rd = cs.rayIntersect ro rd) ∧
    (linearScanClosest objects ro rd).isIntersecting = true ∧
    F.lt (c.rayIntersect ro rd).distance
      (linearScanClosest objects ro rd).distance = false := by
  have hinv := scanFold_inv objects ro rd objects (Intersect.empty, F.pinf)
    (fun _ hx => hx) (Or.inl ⟨rfl, rfl⟩)
  have hmin := scanFold_min ro rd c hhit objects (Intersect.empty, F.pinf) hc
  rcases hinv with ⟨h1, h2⟩ | ⟨cs, hcs, h1, h2, h3⟩
  · obtain ⟨q, hq⟩ := Cube.rayIntersect_distance_finite c ro rd hhit
    rw [h2, hq] at hmin
    cases hmin
  · rw [h3] at hmin
    exact ⟨⟨cs, hcs, h1⟩, h2, hmin⟩

theorem occludedLoop_sound (objects : List Cube) (g : UniformGridAccel)
    (ro rd : FV3) (maxT : F) (st : DDAStatic) (fuel : ℕ) (cur : DDACursor)
    (h : occludedLoop objects g ro rd maxT st fuel cur = true) :
    linearScanOccluded objects ro rd maxT = true := by
  induction fuel generalizing cur with
  | zero => simp [occludedLoop] at h
  | succ n ih =>
    simp only [occludedLoop] at h
    split at h
    · rename_i hany
      rw [List.any_eq_true] at hany
      obtain ⟨k, hk, hcell⟩ := hany
      unfold occludedCellHit at hcell
      cases hg : objects.get? k with
      | none => rw [hg] at hcell; cases hcell
      | some c =>
        rw [hg] at hcell
        rw [linearScanOccluded, List.any_eq_true]
        exact ⟨c, List.get?_mem hg, hcell⟩
    · split at h
      · cases h
      · split at h
        · cases h
        · split at h
          · cases h
          · exact ih _ h

/-- The grid's closest hit always carries `object_index = None`. -/
theorem trace_objectIndex (g : UniformGridAccel) (objects : List Cube)
    (ro rd : FV3) : (g.trace ro rd objects).objectIndex = none := by
  rcases trace_res g objects ro rd with h | ⟨c, _, h, _⟩
  · rw [h]; rfl
  · rw [h]; exact Cube.rayIntersect_objectIndex c ro rd

/-- The preview override of `cast_ray` is the identity: the hovered-index
comparison is against an `object_index` that is always `None`. -/
theorem processedHit_preview (accel : UniformGridAccel) (objects : List Cube)
    (pv : Option ℕ) (ro rd : FV3) :
    processedHit accel objects pv ro rd = accel.trace ro rd objects := by
  unfold processedHit
  cases pv with
  | none => rfl
  | some hov => simp [trace_objectIndex]

/-- `cast_ray` does not depend on the preview argument at all. -/
theorem castRay_preview (sqrtF : F → F) (powF : F → F → F) (objects : List Cube)
    (accel : UniformGridAccel) (light : Light) (pv : Option ℕ)
    (skybox : Option Skybox) :
    ∀ (fuel depth : ℕ) (ro rd : FV3), 4 - depth ≤ fuel →
      castRay sqrtF powF objects accel light pv skybox ro rd depth =
      castRay sqrtF powF objects accel light none skybox ro rd depth := by
  intro fuel
  induction fuel with
  | zero =>
    intro depth ro rd hf
    have hd : 3 < depth := by omega
    rw [castRay.eq_def, castRay.eq_def]
    simp [hd]
  | succ n ih =>
    intro depth ro rd hf
    by_cases hd : 3 < depth
    · rw [castRay.eq_def, castRay.eq_def]
      simp [hd]
    · have ih1 : ∀ ro2 rd2 : FV3,
          castRay sqrtF powF objects accel light pv skybox ro2 rd2 (depth + 1) =
          castRay sqrtF powF objects accel light none skybox ro2 rd2 (depth + 1) :=
        fun ro2 rd2 => ih (depth + 1) ro2 rd2 (by omega)
      conv_lhs => rw [castRay.eq_def]
      conv_rhs => rw [castRay.eq_def]
      rw [dif_neg hd, dif_neg hd]
      simp only [processedHit_preview, ih1]

unseal Rat.add Rat.mul Rat.sub Rat.inv Nat.gcd in
/-- Counterexample to claim C1: in the `cexScene` the ray `(cexRayO,
cexRayD)` tangentially hits `cexCorner` at distance `1/3` exactly at a
grid-cell corner; the linear scan reports this hit but the DDA's
tie-stepping walks around the only cells listing the object, so `trace`
reports no hit at all, refuting the claimed equivalence. -/
theorem c1_counterexample :
    (cexAccel.trace cexRayO cexRayD cexScene).isIntersecting = false ∧
    (linearScanClosest cexScene cexRayO cexRayD).isIntersecting = true ∧
    (cexCorner.rayIntersect cexRayO cexRayD).isIntersecting = true ∧
    (cexCorner.rayIntersect cexRayO cexRayD).distance = F.fin (1/3) := by
  decide

/-- C1 (amended): one direction of the claimed equivalence holds — when
`UniformGridAccel::trace` reports a hit, the hit record is exactly the
`ray_intersect` record of one of the scene's objects, the linear scan also
reports a hit, and the scan's minimal distance is at most the reported
distance.  The converse (trace finds every scan hit, with equal minimal
distance) is refuted by `c1_counterexample`. -/
theorem c1_trace_sound_vs_scan (objects : List Cube) (desired : ℚ) (ro rd : FV3)
    (hhit : ((UniformGridAccel.build objects desired).trace ro rd
      objects).isIntersecting = true) :
    (∃ c ∈ objects, (UniformGridAccel.build objects desired).trace ro rd objects =
      c.rayIntersect ro rd) ∧
    (linearScanClosest objects ro rd).isIntersecting = true ∧
    F.le (linearScanClosest objects ro rd).distance
      ((UniformGridAccel.build objects desired).trace ro rd objects).distance
      = true := by
  rcases trace_res (UniformGridAccel.build objects desired) objects ro rd with
    he | ⟨c, hc, he, _⟩
  · rw [he] at hhit
    simp [Intersect.empty] at hhit
  · rw [he] at hhit ⊢
    obtain ⟨hex, hsint, hmin⟩ := linearScan_spec objects ro rd c hc hhit
    refine ⟨⟨c, hc, rfl⟩, hsint, ?_⟩
    obtain ⟨q, hq⟩ := Cube.rayIntersect_distance_finite c ro rd hhit
    obtain ⟨cs, hcs, hse⟩ := hex
    obtain ⟨q2, hq2⟩ := Cube.rayIntersect_distance_finite cs ro rd
      (by rw [← hse]; exact hsint)
    apply F.not_lt_to_le
    · rw [hq]; rfl
    · rw [hse, hq2]; rfl
    · exact hmin

unseal Rat.add Rat.mul Rat.sub Rat.inv Nat.gcd in
/-- Witness for `c1_trace_sound_vs_scan` at a concrete hit: the one-cube
scene with a ray straight at the cube. -/
theorem c1_trace_sound_vs_scan_witness :
    (∃ c ∈ wScene, (UniformGridAccel.build wScene 1).trace wRayO wRayD wScene =
      c.rayIntersect wRayO wRayD) ∧
    (linearScanClosest wScene wRayO wRayD).isIntersecting = true ∧
    F.le (linearScanClosest wScene wRayO wRayD).distance
      ((UniformGridAccel.build wScene 1).trace wRayO wRayD wScene).distance
      = true :=
  c1_trace_sound_vs_scan wScene 1 wRayO wRayD (by decide)

unseal Rat.add Rat.mul Rat.sub Rat.inv Nat.gcd in
/-- Counterexample to claim C2: the same corner-tangent configuration with
`max_t = 1`; the scan finds the qualifying hit at distance `1/3` in
`(1e-4, 1)` but `occluded` returns false. -/
theorem c2_counterexample :
    cexAccel.occluded cexRayO cexRayD (F.fin 1) cexScene = false ∧
    linearScanOccluded cexScene cexRayO cexRayD (F.fin 1) = true := by
  decide

/-- C2 (amended): one direction of the claimed equivalence holds — when
`UniformGridAccel::occluded` returns true, a linear scan finds an object
whose hit distance lies strictly between `eps = 1e-4` and `max_t`.  The
converse is refuted by `c2_counterexample`. -/
theorem c2_occluded_sound (objects : List Cube) (desired : ℚ) (ro rd : FV3)
    (maxT : F)
    (hocc : (UniformGridAccel.build objects desired).occluded ro rd maxT
      objects = true) :
    linearScanOccluded objects ro rd maxT = true := by
  unfold UniformGridAccel.occluded at hocc
  split at hocc
  · cases hocc
  · exact occludedLoop_sound _ _ _ _ _ _ _ _ hocc

unseal Rat.add Rat.mul Rat.sub Rat.inv Nat.gcd in
/-- Witness for `c2_occluded_sound`: the one-cube scene occludes the
witness ray within distance 10. -/
theorem c2_occluded_sound_witness :
    linearScanOccluded wScene wRayO wRayD (F.fin 10) = true :=
  c2_occluded_sound wScene 1 wRayO wRayD (F.fin 10) (by decide)

/-- C5: `cast_ray` terminates on every input — the model is accepted by
well-founded recursion on `4 - depth` precisely because every recursive
leg passes `depth + 1` under the `depth <= 3` guard — and any call with
`depth > 3` immediately returns the sky sample, a value independent of the
scene, the grid, the light and the preview, so no scene query happens and
the recursion never exceeds depth 4. -/
theorem c5_depth_cutoff (sqrtF : F → F) (powF : F → F → F) (objects : List Cube)
    (accel : UniformGridAccel) (light : Light) (preview : Option ℕ)
    (skybox : Option Skybox) (ro rd : FV3) (depth : ℕ) (hd : 3 < depth) :
    castRay sqrtF powF objects accel light preview skybox ro rd depth =
      sampleBackground sqrtF powF rd skybox := by
  rw [castRay.eq_def]
  simp [hd]

/-- Witness for `c5_depth_cutoff` at depth 4 on a concrete scene. -/
theorem c5_depth_cutoff_witness :
    3 < 4 ∧
    castRay oneSqrt onePow wScene wAccel wLight none none wRayO wRayD 4 =
      sampleBackground oneSqrt onePow wRayD none :=
  ⟨by decide,
   c5_depth_cutoff oneSqrt onePow wScene wAccel wLight none none wRayO wRayD 4
     (by decide)⟩

/-- C8: `Cube::ray_intersect` is total (it is a Lean function over all
extended inputs, including zero and non-finite direction components, whose
slab products absorb division by zero through the IEEE infinities of the
model), and it returns the empty record whenever `t_exit < 0`, whenever
`t_enter > t_exit`, and whenever the selected `t_hit` is not finite. -/
theorem c8_miss_conditions (c : Cube) (ro rd : FV3) :
    (F.lt (cubeTExit c ro rd) 0 = true → c.rayIntersect ro rd = Intersect.empty) ∧
    (F.lt (cubeTExit c ro rd) (cubeTEnter c ro rd) = true →
      c.rayIntersect ro rd = Intersect.empty) ∧
    ((cubeTHit c ro rd).isFinite = false → c.rayIntersect ro rd = Intersect.empty) := by
  refine ⟨fun h => ?_, fun h => ?_, fun h => ?_⟩
  · simp [Cube.rayIntersect, h]
  · simp [Cube.rayIntersect, h]
  · simp only [Cube.rayIntersect]
    split
    · rfl
    · rw [if_pos (by simp [h])]

unseal Rat.add Rat.mul Rat.sub Rat.inv Nat.gcd in
/-- Witness for `c8_miss_conditions`: the ray beside the cube satisfies
the first two miss conditions (its `t_exit` is `-inf` via the IEEE
infinities on the zero axes), and the all-zero direction from inside the
cube has the non-finite `t_hit = +inf`; both return the empty record. -/
theorem c8_miss_conditions_witness :
    F.lt (cubeTExit unitCube w8RayO w8RayD) 0 = true ∧
    F.lt (cubeTExit unitCube w8RayO w8RayD) (cubeTEnter unitCube w8RayO w8RayD) = true ∧
    unitCube.rayIntersect w8RayO w8RayD = Intersect.empty ∧
    (cubeTHit unitCube FV3.zero FV3.zero).isFinite = false ∧
    unitCube.rayIntersect FV3.zero FV3.zero = Intersect.empty :=
  ⟨by decide, by decide,
   (c8_miss_conditions unitCube w8RayO w8RayD).1 (by decide),
   by decide,
   (c8_miss_conditions unitCube FV3.zero FV3.zero).2.2 (by decide)⟩

/-- C10: every `Intersect` produced by `Cube::ray_intersect` has
`object_index = None`; `UniformGridAccel::trace` propagates that, so its
result also has `object_index = None`; consequently the integrator's
preview-override branch is never taken — `cast_ray` with any hovered
preview index computes exactly what it computes with no preview, for every
scene, grid, light, skybox, ray and depth. -/
theorem c10_preview_never_taken :
    (∀ (c : Cube) (ro rd : FV3), (c.rayIntersect ro rd).objectIndex = none) ∧
    (∀ (g : UniformGridAccel) (objects : List Cube) (ro rd : FV3),
      (g.trace ro rd objects).objectIndex = none) ∧
    (∀ (sqrtF : F → F) (powF : F → F → F) (objects : List Cube)
      (accel : UniformGridAccel) (light : Light) (hovered : ℕ)
      (skybox : Option Skybox) (ro rd : FV3) (depth : ℕ),
      castRay sqrtF powF objects accel light (some hovered) skybox ro rd depth =
      castRay sqrtF powF objects accel light none skybox ro rd depth) :=
  ⟨Cube.rayIntersect_objectIndex, trace_objectIndex,
   fun sqrtF powF objects accel light hovered skybox ro rd depth =>
     castRay_preview sqrtF powF objects accel light (some hovered) skybox
       (4 - depth) depth ro rd le_rfl⟩

unseal Rat.add Rat.mul Rat.sub Rat.inv Nat.gcd in
/-- C6: for the unit cube centered at the origin, rays hitting the exact
center of each of the six faces from outside select that face and sample
UV `(1/2, 1/2)` (the `1e-6` inset clamp leaves `1/2` unchanged). -/
theorem c6_face_center_uv :
    cubeFace unitCube (QV3.toF ⟨2, 0, 0⟩) (QV3.toF ⟨-1, 0, 0⟩) = Face.posX ∧
    cubeUV unitCube (QV3.toF ⟨2, 0, 0⟩) (QV3.toF ⟨-1, 0, 0⟩) =
      (F.fin (1/2), F.fin (1/2)) ∧
    cubeFace unitCube (QV3.toF ⟨-2, 0, 0⟩) (QV3.toF ⟨1, 0, 0⟩) = Face.negX ∧
    cubeUV unitCube (QV3.toF ⟨-2, 0, 0⟩) (QV3.toF ⟨1, 0, 0⟩) =
      (F.fin (1/2), F.fin (1/2)) ∧
    cubeFace unitCube (QV3.toF ⟨0, 2, 0⟩) (QV3.toF ⟨0, -1, 0⟩) = Face.posY ∧
    cubeUV unitCube (QV3.toF ⟨0, 2, 0⟩) (QV3.toF ⟨0, -1, 0⟩) =
      (F.fin (1/2), F.fin (1/2)) ∧
    cubeFace unitCube (QV3.toF ⟨0, -2, 0⟩) (QV3.toF ⟨0, 1, 0⟩) = Face.negY ∧
    cubeUV unitCube (QV3.toF ⟨0, -2, 0⟩) (QV3.toF ⟨0, 1, 0⟩) =
      (F.fin (1/2), F.fin (1/2)) ∧
    cubeFace unitCube (QV3.toF ⟨0, 0, 2⟩) (QV3.toF ⟨0, 0, -1⟩) = Face.posZ ∧
    cubeUV unitCube (QV3.toF ⟨0, 0, 2⟩) (QV3.toF ⟨0, 0, -1⟩) =
      (F.fin (1/2), F.fin (1/2)) ∧
    cubeFace unitCube (QV3.toF ⟨0, 0, -2⟩) (QV3.toF ⟨0, 0, 1⟩) = Face.negZ ∧
    cubeUV unitCube (QV3.toF ⟨0, 0, -2⟩) (QV3.toF ⟨0, 0, 1⟩) =
      (F.fin (1/2), F.fin (1/2)) := by
  decide

/-- C3: whenever `cast_ray` processes a hit (depth within the cap and the
traced intersection reports a hit), its return value is exactly the
composite `phong * max(0, 1 - reflectivity - transparency) +
reflect * reflectivity + refract * transparency + glint`, and the
transparency it blends with equals the spec's formula
`clamp(0, 1, (1 - coverage) + albedo3 * coverage)`. -/
theorem c3_composite (sqrtF : F → F) (powF : F → F → F) (objects : List Cube)
    (accel : UniformGridAccel) (light : Light) (preview : Option ℕ)
    (skybox : Option Skybox) (ro rd : FV3) (depth : ℕ) (hd : ¬ 3 < depth)
    (hhit : (processedHit accel objects preview ro rd).isIntersecting = true) :
    castRay sqrtF powF objects accel light preview skybox ro rd depth =
      FV3.add
        (FV3.add
          (FV3.add
            (FV3.scale
              (phongColor sqrtF powF light
                (processedHit accel objects preview ro rd) objects accel ro)
              (kPhongOf (processedHit accel objects preview ro rd)))
            (FV3.scale
              (reflectLeg sqrtF powF objects accel light preview skybox
                (processedHit accel objects preview ro rd) rd depth)
              (processedHit accel objects preview ro rd).material.albedo2))
          (FV3.scale
            (refractLeg sqrtF powF objects accel light preview skybox
              (processedHit accel objects preview ro rd) rd depth)
            (transparencyOf (processedHit accel objects preview ro rd))))
        (glintColor sqrtF powF light
          (processedHit accel objects preview ro rd) objects accel rd) ∧
    transparencyOf (processedHit accel objects preview ro rd) =
      specTransparency (processedHit accel objects preview ro rd).coverage
        (processedHit accel objects preview ro rd).material.albedo3 := by
  refine ⟨?_, rfl⟩
  rw [castRay.eq_def]
  rw [dif_neg hd]
  simp [reflectLeg, refractLeg, hhit]

unseal Rat.add Rat.mul Rat.sub Rat.inv Nat.gcd in
/-- Witness for `c3_composite` on the one-cube scene with the witness ray
hitting the cube head-on at depth 0. -/
theorem c3_composite_witness :
    (¬ 3 < 0) ∧
      (processedHit wAccel wScene none wRayO wRayD).isIntersecting = true ∧
      (castRay oneSqrt onePow wScene wAccel wLight none none wRayO wRayD 0 =
        FV3.add
          (FV3.add
            (FV3.add
              (FV3.scale
                (phongColor oneSqrt onePow wLight
                  (processedHit wAccel wScene none wRayO wRayD) wScene wAccel wRayO)
                (kPhongOf (processedHit wAccel wScene none wRayO wRayD)))
              (FV3.scale
                (reflectLeg oneSqrt onePow wScene wAccel wLight none none
                  (processedHit wAccel wScene none wRayO wRayD) wRayD 0)
                (processedHit wAccel wScene none wRayO wRayD).material.albedo2))
            (FV3.scale
              (refractLeg oneSqrt onePow wScene wAccel wLight none none
                (processedHit wAccel wScene none wRayO wRayD) wRayD 0)
              (transparencyOf (processedHit wAccel wScene none wRayO wRayD))))
          (glintColor oneSqrt onePow wLight
            (processedHit wAccel wScene none wRayO wRayD) wScene wAccel wRayD) ∧
      transparencyOf (processedHit wAccel wScene none wRayO wRayD) =
        specTransparency (processedHit wAccel wScene none wRayO wRayD).coverage
          (processedHit wAccel wScene none wRayO wRayD).material.albedo3) :=
  ⟨by decide, by decide,
    c3_composite oneSqrt onePow wScene wAccel wLight none none wRayO wRayD 0
      (by decide) (by decide)⟩

theorem clampQ_bounds (x lo hi : ℚ) (h : lo ≤ hi) :
    lo ≤ clampQ x lo hi ∧ clampQ x lo hi ≤ hi := by
  unfold clampQ
  split_ifs with h1 h2 <;> constructor <;> linarith

unseal Rat.add Rat.mul Rat.sub Rat.inv Nat.gcd in
/-- Counterexample to claim C9: a single `orbit` call with the arbitrary
delta 10 leaves the yaw at `10 - 2*PI`, which is greater than `PI` — the
single-step wrap cannot bring a large increment back into `[-PI, PI]`. -/
theorem c9_counterexample : f32PI < (cexCamera.orbit 10 0).yaw := by
  decide

/-- C9 (amended): after every `orbit` or `zoom` call (with a valid config,
`min <= max`, as Rust's `clamp` panics otherwise), pitch and distance do
lie in their configured ranges; `zoom` leaves the yaw unchanged; but the
yaw bound `[-PI, PI]` holds after `orbit` only under the additional
premises that the previous yaw was in range and the scaled yaw increment
has magnitude at most `2*PI` — for arbitrary deltas it fails, as
`c9_counterexample` shows. -/
theorem c9_orbit_zoom_clamped (c : Camera) (dy dp dz : ℚ)
    (hp : c.config.minPitch ≤ c.config.maxPitch)
    (hd : c.config.minDistance ≤ c.config.maxDistance) :
    (c.config.minPitch ≤ (c.orbit dy dp).pitch ∧
      (c.orbit dy dp).pitch ≤ c.config.maxPitch) ∧
    (c.config.minDistance ≤ (c.orbit dy dp).distance ∧
      (c.orbit dy dp).distance ≤ c.config.maxDistance) ∧
    (c.config.minPitch ≤ (c.zoom dz).pitch ∧
      (c.zoom dz).pitch ≤ c.config.maxPitch) ∧
    (c.config.minDistance ≤ (c.zoom dz).distance ∧
      (c.zoom dz).distance ≤ c.config.maxDistance) ∧
    (c.zoom dz).yaw = c.yaw ∧
    ((-f32PI ≤ c.yaw ∧ c.yaw ≤ f32PI ∧
        |dy * c.config.orbitSensitivityYaw| ≤ 2 * f32PI) →
      -f32PI ≤ (c.orbit dy dp).yaw ∧ (c.orbit dy dp).yaw ≤ f32PI) := by
  refine ⟨?_, ?_, ?_, ?_, ?_, ?_⟩
  · simpa [Camera.orbit, Camera.clampAnglesAndDistance] using
      clampQ_bounds (c.pitch + dp * c.config.orbitSensitivityPitch)
        c.config.minPitch c.config.maxPitch hp
  · simpa [Camera.orbit, Camera.clampAnglesAndDistance] using
      clampQ_bounds c.distance c.config.minDistance c.config.maxDistance hd
  · simpa [Camera.zoom, Camera.clampAnglesAndDistance] using
      clampQ_bounds c.pitch c.config.minPitch c.config.maxPitch hp
  · simpa [Camera.zoom, Camera.clampAnglesAndDistance] using
      clampQ_bounds (c.distance + dz * c.config.zoomSensitivity)
        c.config.minDistance c.config.maxDistance hd
  · simp [Camera.zoom, Camera.clampAnglesAndDistance]
  · rintro ⟨h1, h2, h3⟩
    rw [abs_le] at h3
    simp only [Camera.orbit, Camera.clampAnglesAndDistance]
    constructor <;> split_ifs <;> linarith

unseal Rat.add Rat.mul Rat.sub Rat.inv Nat.gcd in
/-- Witness for `c9_orbit_zoom_clamped` on the concrete camera and deltas
`(1, 2, 3)`. -/
theorem c9_orbit_zoom_clamped_witness :
    (cexCamera.config.minPitch ≤ (cexCamera.orbit 1 2).pitch ∧
      (cexCamera.orbit 1 2).pitch ≤ cexCamera.config.maxPitch) ∧
    (cexCamera.config.minDistance ≤ (cexCamera.orbit 1 2).distance ∧
      (cexCamera.orbit 1 2).distance ≤ cexCamera.config.maxDistance) ∧
    (cexCamera.config.minPitch ≤ (cexCamera.zoom 3).pitch ∧
      (cexCamera.zoom 3).pitch ≤ cexCamera.config.maxPitch) ∧
    (cexCamera.config.minDistance ≤ (cexCamera.zoom 3).distance ∧
      (cexCamera.zoom 3).distance ≤ cexCamera.config.maxDistance) ∧
    (cexCamera.zoom 3).yaw = cexCamera.yaw ∧
    (-f32PI ≤ (cexCamera.orbit 1 2).yaw ∧ (cexCamera.orbit 1 2).yaw ≤ f32PI) :=
  have h := c9_orbit_zoom_clamped cexCamera 1 2 3 (by decide) (by decide)
  ⟨h.1, h.2.1, h.2.2.1, h.2.2.2.1, h.2.2.2.2.1,
   h.2.2.2.2.2 ⟨by decide, by decide, by decide⟩⟩

unseal Rat.add Rat.mul Rat.sub Rat.inv Nat.gcd in
/-- C7: for each of the six cardinal directions, `Skybox::sample` selects
the corresponding face texture and returns that face's `sample_clamp` at
UV `(1/2, 1/2)`, for any square-root model with `sqrt 1 = 1`. -/
theorem c7_skybox_cardinals (sqrtF : F → F) (hs : sqrtF (F.fin 1) = F.fin 1)
    (sb : Skybox) :
    Skybox.sample sqrtF sb ⟨F.fin 1, F.fin 0, F.fin 0⟩ =
      sb.posx.sampleClamp (F.fin (1/2)) (F.fin (1/2)) ∧
    Skybox.sample sqrtF sb ⟨F.fin (-1), F.fin 0, F.fin 0⟩ =
      sb.negx.sampleClamp (F.fin (1/2)) (F.fin (1/2)) ∧
    Skybox.sample sqrtF sb ⟨F.fin 0, F.fin 1, F.fin 0⟩ =
      sb.posy.sampleClamp (F.fin (1/2)) (F.fin (1/2)) ∧
    Skybox.sample sqrtF sb ⟨F.fin 0, F.fin (-1), F.fin 0⟩ =
      sb.negy.sampleClamp (F.fin (1/2)) (F.fin (1/2)) ∧
    Skybox.sample sqrtF sb ⟨F.fin 0, F.fin 0, F.fin 1⟩ =
      sb.posz.sampleClamp (F.fin (1/2)) (F.fin (1/2)) ∧
    Skybox.sample sqrtF sb ⟨F.fin 0, F.fin 0, F.fin (-1)⟩ =
      sb.negz.sampleClamp (F.fin (1/2)) (F.fin (1/2)) := by
  have hnorm : ∀ v : FV3, FV3.dot v v = F.fin 1 →
      FV3.normalized sqrtF v = FV3.scale v (F.div 1 (F.fin 1)) := by
    intro v hv
    unfold FV3.normalized
    rw [hv, hs]
    rfl
  refine ⟨?_, ?_, ?_, ?_, ?_, ?_⟩ <;>
    · simp only [Skybox.sample]
      rw [hnorm _ (by decide)]
      rfl

unseal Rat.add Rat.mul Rat.sub Rat.inv Nat.gcd in
/-- Witness for `c7_skybox_cardinals` on the concrete one-texel skybox with
the constant-one square root. -/
theorem c7_skybox_cardinals_witness :
    Skybox.sample oneSqrt wSkybox ⟨F.fin 1, F.fin 0, F.fin 0⟩ =
      wSkybox.posx.sampleClamp (F.fin (1/2)) (F.fin (1/2)) ∧
    Skybox.sample oneSqrt wSkybox ⟨F.fin (-1), F.fin 0, F.fin 0⟩ =
      wSkybox.negx.sampleClamp (F.fin (1/2)) (F.fin (1/2)) ∧
    Skybox.sample oneSqrt wSkybox ⟨F.fin 0, F.fin 1, F.fin 0⟩ =
      wSkybox.posy.sampleClamp (F.fin (1/2)) (F.fin (1/2)) ∧
    Skybox.sample oneSqrt wSkybox ⟨F.fin 0, F.fin (-1), F.fin 0⟩ =
      wSkybox.negy.sampleClamp (F.fin (1/2)) (F.fin (1/2)) ∧
    Skybox.sample oneSqrt wSkybox ⟨F.fin 0, F.fin 0, F.fin 1⟩ =
      wSkybox.posz.sampleClamp (F.fin (1/2)) (F.fin (1/2)) ∧
    Skybox.sample oneSqrt wSkybox ⟨F.fin 0, F.fin 0, F.fin (-1)⟩ =
      wSkybox.negz.sampleClamp (F.fin (1/2)) (F.fin (1/2)) :=
  c7_skybox_cardinals oneSqrt (by decide) wSkybox

theorem rmin_fin (p q : ℚ) :
    F.rmin (F.fin p) (F.fin q) = if p < q then F.fin p else F.fin q := by
  by_cases h : p < q <;> simp [F.rmin, F.lt, h]

theorem rmax_fin (p q : ℚ) :
    F.rmax (F.fin p) (F.fin q) = if q < p then F.fin p else F.fin q := by
  by_cases h : q < p <;> simp [F.rmax, F.lt, h]

theorem negF_rmax {a b : F} (ha : NegF a) (hb : NegF b) : NegF (F.rmax a b) := by
  rcases ha with rfl | ⟨p, rfl, hp⟩ <;> rcases hb with rfl | ⟨q, rfl, hq⟩
  · exact Or.inl rfl
  · exact Or.inr ⟨q, rfl, hq⟩
  · exact Or.inr ⟨p, rfl, hp⟩
  · rw [rmax_fin]
    split
    · exact Or.inr ⟨p, rfl, hp⟩
    · exact Or.inr ⟨q, rfl, hq⟩

theorem posF_rmin {a b : F} (ha : PosF a) (hb : PosF b) : PosF (F.rmin a b) := by
  rcases ha with rfl | ⟨p, rfl, hp⟩ <;> rcases hb with rfl | ⟨q, rfl, hq⟩
  · exact Or.inl rfl
  · exact Or.inr ⟨q, rfl, hq⟩
  · exact Or.inr ⟨p, rfl, hp⟩
  · rw [rmin_fin]
    split
    · exact Or.inr ⟨p, rfl, hp⟩
    · exact Or.inr ⟨q, rfl, hq⟩

theorem finPos_rmin_left {a b : F} (ha : FinPos a) (hb : PosF b) :
    FinPos (F.rmin a b) := by
  obtain ⟨p, rfl, hp⟩ := ha
  rcases hb with rfl | ⟨q, rfl, hq⟩
  · exact ⟨p, rfl, hp⟩
  · rw [rmin_fin]
    split
    · exact ⟨p, rfl, hp⟩
    · exact ⟨q, rfl, hq⟩

theorem finPos_rmin_right {a b : F} (ha : PosF a) (hb : FinPos b) :
    FinPos (F.rmin a b) := by
  obtain ⟨q, rfl, hq⟩ := hb
  rcases ha with rfl | ⟨p, rfl, hp⟩
  · exact ⟨q, rfl, hq⟩
  · rw [rmin_fin]
    split
    · exact ⟨p, rfl, hp⟩
    · exact ⟨q, rfl, hq⟩

theorem negF_lt_zero (a : F) (h : NegF a) : F.lt 0 a = false := by
  rcases h with rfl | ⟨q, rfl, hq⟩
  · rfl
  · show decide ((0 : ℚ) < q) = false
    exact decide_eq_false (not_lt.mpr (le_of_lt hq))

theorem posF_lt_zero (a : F) (h : PosF a) : F.lt a 0 = false := by
  rcases h with rfl | ⟨q, rfl, hq⟩
  · rfl
  · show decide (q < (0 : ℚ)) = false
    exact decide_eq_false (not_lt.mpr (le_of_lt hq))

theorem posF_lt_negF (a b : F) (ha : PosF a) (hb : NegF b) : F.lt a b = false := by
  rcases ha with rfl | ⟨p, rfl, hp⟩ <;> rcases hb with rfl | ⟨q, rfl, hq⟩
  · rfl
  · rfl
  · rfl
  · show decide (p < q) = false
    exact decide_eq_false (not_lt.mpr (le_of_lt (lt_trans hq hp)))

unseal Rat.add Rat.mul Rat.sub Rat.inv Nat.gcd in
theorem slab_axis (mn mx oq dq : ℚ) (hmn : mn < oq) (hmx : oq < mx) :
    NegF (F.rmin (F.mul (F.sub (F.fin mn) (F.fin oq)) (F.div 1 (F.fin dq)))
        (F.mul (F.sub (F.fin mx) (F.fin oq)) (F.div 1 (F.fin dq)))) ∧
    PosF (F.rmax (F.mul (F.sub (F.fin mn) (F.fin oq)) (F.div 1 (F.fin dq)))
        (F.mul (F.sub (F.fin mx) (F.fin oq)) (F.div 1 (F.fin dq)))) ∧
    (dq ≠ 0 →
      FinPos (F.rmax (F.mul (F.sub (F.fin mn) (F.fin oq)) (F.div 1 (F.fin dq)))
        (F.mul (F.sub (F.fin mx) (F.fin oq)) (F.div 1 (F.fin dq))))) := by
  have hsub1 : F.sub (F.fin mn) (F.fin oq) = F.fin (mn - oq) := by
    show F.fin (mn + -oq) = F.fin (mn - oq)
    rw [sub_eq_add_neg]
  have hsub2 : F.sub (F.fin mx) (F.fin oq) = F.fin (mx - oq) := by
    show F.fin (mx + -oq) = F.fin (mx - oq)
    rw [sub_eq_add_neg]
  rw [hsub1, hsub2]
  by_cases hdq : dq = 0
  · subst hdq
    have hdiv : F.div 1 (F.fin 0) = F.pinf := by decide
    rw [hdiv]
    have hm1 : F.mul (F.fin (mn - oq)) F.pinf = F.ninf := by
      show (if 0 < mn - oq then F.pinf else if mn - oq < 0 then F.ninf else F.nan) =
        F.ninf
      rw [if_neg (by linarith), if_pos (by linarith)]
    have hm2 : F.mul (F.fin (mx - oq)) F.pinf = F.pinf := by
      show (if 0 < mx - oq then F.pinf else if mx - oq < 0 then F.ninf else F.nan) =
        F.pinf
      rw [if_pos (by linarith)]
    rw [hm1, hm2]
    exact ⟨Or.inl rfl, Or.inl rfl, fun h => absurd rfl h⟩
  · have hdiv : F.div 1 (F.fin dq) = F.fin (1 / dq) := by
      show (if dq = 0 then (if (0 : ℚ) < 1 then F.pinf else if (1 : ℚ) < 0 then F.ninf
        else F.nan) else F.fin (1 / dq)) = F.fin (1 / dq)
      rw [if_neg hdq]
    rw [hdiv]
    have hm1 : F.mul (F.fin (mn - oq)) (F.fin (1 / dq)) =
        F.fin ((mn - oq) * (1 / dq)) := rfl
    have hm2 : F.mul (F.fin (mx - oq)) (F.fin (1 / dq)) =
        F.fin ((mx - oq) * (1 / dq)) := rfl
    rw [hm1, hm2, rmin_fin, rmax_fin]
    rcases lt_or_gt_of_ne hdq with hneg | hpos
    · have hinv : 1 / dq < 0 := div_neg_of_pos_of_neg one_pos hneg
      have ha : 0 < (mn - oq) * (1 / dq) := mul_pos_of_neg_of_neg (by linarith) hinv
      have hb : (mx - oq) * (1 / dq) < 0 := mul_neg_of_pos_of_neg (by linarith) hinv
      rw [if_neg (by linarith : ¬ (mn - oq) * (1 / dq) < (mx - oq) * (1 / dq))]
      rw [if_pos (by linarith : (mx - oq) * (1 / dq) < (mn - oq) * (1 / dq))]
      exact ⟨Or.inr ⟨_, rfl, hb⟩, Or.inr ⟨_, rfl, ha⟩, fun _ => ⟨_, rfl, ha⟩⟩
    · have hinv : 0 < 1 / dq := one_div_pos.mpr hpos
      have ha : (mn - oq) * (1 / dq) < 0 := mul_neg_of_neg_of_pos (by linarith) hinv
      have hb : 0 < (mx - oq) * (1 / dq) := mul_pos (by linarith) hinv
      rw [if_pos (by linarith : (mn - oq) * (1 / dq) < (mx - oq) * (1 / dq))]
      rw [if_neg (by linarith : ¬ (mx - oq) * (1 / dq) < (mn - oq) * (1 / dq))]
      exact ⟨Or.inr ⟨_, rfl, ha⟩, Or.inr ⟨_, rfl, hb⟩, fun _ => ⟨_, rfl, hb⟩⟩

unseal Rat.add Rat.mul Rat.sub Rat.inv Nat.gcd in
/-- Counterexample to claim C4: the ray from the cube's center along `+X`
exits through the `+X` face (its hit point is on that face and its
distance is the exit distance), yet the returned normal is `(-1, 0, 0)`,
not the outward normal of the exit face: the face is selected by the
entry-axis test `t_enter == tmin_x`, which also fires for interior
origins. -/
theorem c4_counterexample :
    (unitCube.rayIntersect (QV3.toF ⟨0, 0, 0⟩) (QV3.toF ⟨1, 0, 0⟩)).isIntersecting
      = true ∧
    (unitCube.rayIntersect (QV3.toF ⟨0, 0, 0⟩) (QV3.toF ⟨1, 0, 0⟩)).distance =
      cubeTExit unitCube (QV3.toF ⟨0, 0, 0⟩) (QV3.toF ⟨1, 0, 0⟩) ∧
    (unitCube.rayIntersect (QV3.toF ⟨0, 0, 0⟩) (QV3.toF ⟨1, 0, 0⟩)).point =
      QV3.toF ⟨1/2, 0, 0⟩ ∧
    (unitCube.rayIntersect (QV3.toF ⟨0, 0, 0⟩) (QV3.toF ⟨1, 0, 0⟩)).normal ≠
      faceNormal Face.posX := by
  decide

/-- C4 (amended): for every ray whose origin is strictly inside an
untextured cube and whose direction has some nonzero component, the hit is
returned with `t_hit = t_exit` (that half of the claim holds), but the
normal is `faceNormal (cubeFace ...)`, the face selected by the entry-axis
comparisons — not the exit face, as `c4_counterexample` shows. -/
theorem c4_inside_hit_is_exit (c : Cube) (ox oy oz dx dy dz : ℚ)
    (hx1 : c.min.x < ox) (hx2 : ox < c.max.x)
    (hy1 : c.min.y < oy) (hy2 : oy < c.max.y)
    (hz1 : c.min.z < oz) (hz2 : oz < c.max.z)
    (hdir : dx ≠ 0 ∨ dy ≠ 0 ∨ dz ≠ 0)
    (htex : ∀ f, c.faceTextures f = none) :
    cubeTHit c ⟨F.fin ox, F.fin oy, F.fin oz⟩ ⟨F.fin dx, F.fin dy, F.fin dz⟩ =
      cubeTExit c ⟨F.fin ox, F.fin oy, F.fin oz⟩ ⟨F.fin dx, F.fin dy, F.fin dz⟩ ∧
    c.rayIntersect ⟨F.fin ox, F.fin oy, F.fin oz⟩ ⟨F.fin dx, F.fin dy, F.fin dz⟩ =
      Intersect.withCoverage
        (FV3.add ⟨F.fin ox, F.fin oy, F.fin oz⟩
          (FV3.scale ⟨F.fin dx, F.fin dy, F.fin dz⟩
            (cubeTExit c ⟨F.fin ox, F.fin oy, F.fin oz⟩
              ⟨F.fin dx, F.fin dy, F.fin dz⟩)))
        (faceNormal
          (cubeFace c ⟨F.fin ox, F.fin oy, F.fin oz⟩ ⟨F.fin dx, F.fin dy, F.fin dz⟩))
        (cubeTExit c ⟨F.fin ox, F.fin oy, F.fin oz⟩ ⟨F.fin dx, F.fin dy, F.fin dz⟩)
        c.material 1 := by
  have hax := slab_axis c.min.x c.max.x ox dx hx1 hx2
  have hay := slab_axis c.min.y c.max.y oy dy hy1 hy2
  have haz := slab_axis c.min.z c.max.z oz dz hz1 hz2
  have hminX : NegF (cubeTminX c ⟨F.fin ox, F.fin oy, F.fin oz⟩
      ⟨F.fin dx, F.fin dy, F.fin dz⟩) := hax.1
  have hminY : NegF (cubeTminY c ⟨F.fin ox, F.fin oy, F.fin oz⟩
      ⟨F.fin dx, F.fin dy, F.fin dz⟩) := hay.1
  have hminZ : NegF (cubeTminZ c ⟨F.fin ox, F.fin oy, F.fin oz⟩
      ⟨F.fin dx, F.fin dy, F.fin dz⟩) := haz.1
  have hmaxX : PosF (cubeTmaxX c ⟨F.fin ox, F.fin oy, F.fin oz⟩
      ⟨F.fin dx, F.fin dy, F.fin dz⟩) := hax.2.1
  have hmaxY : PosF (cubeTmaxY c ⟨F.fin ox, F.fin oy, F.fin oz⟩
      ⟨F.fin dx, F.fin dy, F.fin dz⟩) := hay.2.1
  have hmaxZ : PosF (cubeTmaxZ c ⟨F.fin ox, F.fin oy, F.fin oz⟩
      ⟨F.fin dx, F.fin dy, F.fin dz⟩) := haz.2.1
  have hEnter : NegF (cubeTEnter c ⟨F.fin ox, F.fin oy, F.fin oz⟩
      ⟨F.fin dx, F.fin dy, F.fin dz⟩) := negF_rmax (negF_rmax hminX hminY) hminZ
  have hExitPos : PosF (cubeTExit c ⟨F.fin ox, F.fin oy, F.fin oz⟩
      ⟨F.fin dx, F.fin dy, F.fin dz⟩) := posF_rmin (posF_rmin hmaxX hmaxY) hmaxZ
  have hExitFin : FinPos (cubeTExit c ⟨F.fin ox, F.fin oy, F.fin oz⟩
      ⟨F.fin dx, F.fin dy, F.fin dz⟩) := by
    rcases hdir with h | h | h
    · exact finPos_rmin_left (finPos_rmin_left (hax.2.2 h) hmaxY) hmaxZ
    · exact finPos_rmin_left (finPos_rmin_right hmaxX (hay.2.2 h)) hmaxZ
    · exact finPos_rmin_right (posF_rmin hmaxX hmaxY) (haz.2.2 h)
  have hthit : cubeTHit c ⟨F.fin ox, F.fin oy, F.fin oz⟩
      ⟨F.fin dx, F.fin dy, F.fin dz⟩ =
      cubeTExit c ⟨F.fin ox, F.fin oy, F.fin oz⟩ ⟨F.fin dx, F.fin dy, F.fin dz⟩ := by
    unfold cubeTHit
    rw [if_neg]
    rw [negF_lt_zero _ hEnter]
    exact Bool.false_ne_true
  refine ⟨hthit, ?_⟩
  obtain ⟨tq, htq, htqpos⟩ := hExitFin
  have hc1 : F.lt (cubeTExit c ⟨F.fin ox, F.fin oy, F.fin oz⟩
      ⟨F.fin dx, F.fin dy, F.fin dz⟩) 0 = false := posF_lt_zero _ hExitPos
  have hc2 : F.lt (cubeTExit c ⟨F.fin ox, F.fin oy, F.fin oz⟩
      ⟨F.fin dx, F.fin dy, F.fin dz⟩)
      (cubeTEnter c ⟨F.fin ox, F.fin oy, F.fin oz⟩ ⟨F.fin dx, F.fin dy, F.fin dz⟩) =
      false := posF_lt_negF _ _ hExitPos hEnter
  rw [htq] at hc1 hc2 hthit
  simp only [Cube.rayIntersect, htq, hthit, hc1, hc2, Bool.or_self,
    Bool.false_eq_true, if_false, F.isFinite, Bool.not_true, htex]

unseal Rat.add Rat.mul Rat.sub Rat.inv Nat.gcd in
/-- Witness for `c4_inside_hit_is_exit`: the center of the unit cube with
direction `(1, 0, 0)`. -/
theorem c4_inside_hit_is_exit_witness :
    cubeTHit unitCube ⟨F.fin 0, F.fin 0, F.fin 0⟩ ⟨F.fin 1, F.fin 0, F.fin 0⟩ =
      cubeTExit unitCube ⟨F.fin 0, F.fin 0, F.fin 0⟩ ⟨F.fin 1, F.fin 0, F.fin 0⟩ ∧
    unitCube.rayIntersect ⟨F.fin 0, F.fin 0, F.fin 0⟩ ⟨F.fin 1, F.fin 0, F.fin 0⟩ =
      Intersect.withCoverage
        (FV3.add ⟨F.fin 0, F.fin 0, F.fin 0⟩
          (FV3.scale ⟨F.fin 1, F.fin 0, F.fin 0⟩
            (cubeTExit unitCube ⟨F.fin 0, F.fin 0, F.fin 0⟩
              ⟨F.fin 1, F.fin 0, F.fin 0⟩)))
        (faceNormal
          (cubeFace unitCube ⟨F.fin 0, F.fin 0, F.fin 0⟩ ⟨F.fin 1, F.fin 0, F.fin 0⟩))
        (cubeTExit unitCube ⟨F.fin 0, F.fin 0, F.fin 0⟩ ⟨F.fin 1, F.fin 0, F.fin 0⟩)
        unitCube.material 1 :=
  c4_inside_hit_is_exit unitCube 0 0 0 1 0 0 (by decide) (by decide) (by decide)
    (by decide) (by decide) (by decide) (Or.inl (by decide))
    (fun f => by cases f <;> rfl)

end Diorama
